import Mathlib

/-!
Verification of the persistent-config component of the userscripts
repository (`src/lib/persistent-config.js`).

The JavaScript class `PersistentConfig` is shallowly embedded as a family
of state-passing functions over an explicit world state: the browser's
`localStorage`, a scripted list of remote (AJAX) responses, a trace of the
remote requests issued, the two static promise fields (`#directoryId` and
`#fileIds`) modelled as memoised result cells, and the single instance's
fields.  Promises are sequentialised: a cached promise is a cell holding
`none` (still to be computed) or `some r` (settled with result `r`);
awaiting a `none` cell runs the underlying computation at that point.
The un-awaited README-creation chain started inside
`#getFileIdsFromServer` is modelled as a pending job that runs right
after the `#fileIds` promise settles, mirroring its micro-task timing;
its rejection is discarded, as an unhandled promise rejection is.
Errors are string reasons (promise rejections and the thrown
"Config is not ready yet" error alike).  JSON numbers are modelled as
integers; floating point is outside the shallow embedding.
-/

/-- JSON values as stored and exchanged by the persistent-config component. -/
inductive Json where
  | null
  | bool (b : Bool)
  | num (n : Int)
  | str (s : String)
  | arr (elems : List Json)
  | obj (fields : List (String × Json))

/-- Left brace character, written by code point to keep braces out of literals. -/
def lbrace : Char := Char.ofNat 123

/-- Right brace character. -/
def rbrace : Char := Char.ofNat 125

/-- Double-quote character. -/
def qchar : Char := Char.ofNat 34

/-- Backslash character. -/
def bslash : Char := Char.ofNat 92

/-- Left square bracket. -/
def lbrack : Char := '['

/-- Right square bracket. -/
def rbrack : Char := ']'

/-- Test for the JSON null value, as the nullish test `?? ` does. -/
def Json.isNull : Json → Bool
  | .null => true
  | _ => false

/-- Decimal digits of a natural number, most significant first. -/
def natChars (n : Nat) : List Char :=
  if h : n < 10 then [Char.ofNat (48 + n)]
  else natChars (n / 10) ++ [Char.ofNat (48 + n % 10)]
decreasing_by exact Nat.div_lt_self (by omega) (by omega)

/-- Decimal representation of an integer, matching `JSON.stringify` on integers. -/
def intChars (i : Int) : List Char :=
  if i < 0 then '-' :: natChars i.natAbs else natChars i.natAbs

/-- Lowercase hexadecimal digit for a value below 16. -/
def hexDigitChar (n : Nat) : Char :=
  if n < 10 then Char.ofNat (48 + n) else Char.ofNat (87 + n)

/-- Two lowercase hex digits spelling a byte value. -/
def hexByte (n : Nat) : List Char :=
  [hexDigitChar (n / 16), hexDigitChar (n % 16)]

/-- Escape one character the way `JSON.stringify` quotes strings: the quote,
the backslash and the named control escapes get two-character escapes, the
remaining control characters a `\u00xx` escape, anything else is kept. -/
def escapeChar (c : Char) : List Char :=
  if c = qchar then [bslash, qchar]
  else if c = bslash then [bslash, bslash]
  else if c = Char.ofNat 8 then [bslash, 'b']
  else if c = Char.ofNat 12 then [bslash, 'f']
  else if c = Char.ofNat 10 then [bslash, 'n']
  else if c = Char.ofNat 13 then [bslash, 'r']
  else if c = Char.ofNat 9 then [bslash, 't']
  else if c.toNat < 32 then
    bslash :: 'u' :: '0' :: '0' :: hexByte c.toNat
  else [c]

/-- Escape a whole character list. -/
def escapeList : List Char → List Char
  | [] => []
  | c :: cs => escapeChar c ++ escapeList cs

/-- Quoted, escaped JSON string literal for a character list. -/
def quoteChars (s : List Char) : List Char := qchar :: (escapeList s ++ [qchar])

/-- Whitespace placed before an item when the gap `g` is non-empty
(`JSON.stringify` with an indent argument); `ind` is the enclosing indent. -/
def itemWs (g ind : List Char) : List Char :=
  if g.isEmpty then [] else Char.ofNat 10 :: (ind ++ g)

/-- Whitespace placed before a closing bracket when the gap is non-empty. -/
def closeWs (g ind : List Char) : List Char :=
  if g.isEmpty then [] else Char.ofNat 10 :: ind

/-- Separator after a member key: a bare colon, or colon-space in indented mode. -/
def colonWs (g : List Char) : List Char :=
  if g.isEmpty then [':'] else [':', ' ']

/-- Spelling of the JSON `null` keyword. -/
def nullChars : List Char := 'n' :: 'u' :: 'l' :: 'l' :: []

/-- Spelling of a JSON boolean keyword. -/
def boolChars : Bool → List Char
  | true => 't' :: 'r' :: 'u' :: 'e' :: []
  | false => 'f' :: 'a' :: 'l' :: 's' :: 'e' :: []

mutual

/-- Serialisation of a JSON value, following the `JSON.stringify` algorithm
with gap `g` (empty for `JSON.stringify(v)`, two spaces for
`JSON.stringify(v, null, 2)`) at enclosing indentation `ind`. -/
def serJson (g ind : List Char) : Json → List Char
  | .null => nullChars
  | .bool b => boolChars b
  | .num i => intChars i
  | .str s => quoteChars s.data
  | .arr [] => [lbrack, rbrack]
  | .arr (v :: vs) =>
      lbrack :: (itemWs g ind ++ serJson g (ind ++ g) v ++ serItems g ind vs
        ++ closeWs g ind ++ [rbrack])
  | .obj [] => [lbrace, rbrace]
  | .obj (p :: ps) =>
      lbrace :: (itemWs g ind ++ serMember g ind p ++ serMembers g ind ps
        ++ closeWs g ind ++ [rbrace])

/-- Serialisation of one object member. -/
def serMember (g ind : List Char) : String × Json → List Char
  | (k, v) => quoteChars k.data ++ colonWs g ++ serJson g (ind ++ g) v

/-- Serialisation of the remaining array items, each preceded by a comma. -/
def serItems (g ind : List Char) : List Json → List Char
  | [] => []
  | v :: vs => ',' :: (itemWs g ind ++ serJson g (ind ++ g) v ++ serItems g ind vs)

/-- Serialisation of the remaining object members, each preceded by a comma. -/
def serMembers (g ind : List Char) : List (String × Json) → List Char
  | [] => []
  | p :: ps => ',' :: (itemWs g ind ++ serMember g ind p ++ serMembers g ind ps)

end

/-- Compact serialisation, the model of `JSON.stringify(v)`. -/
def stringifyCompact (v : Json) : String := String.mk (serJson [] [] v)

/-- Two-space indented serialisation, the model of `JSON.stringify(v, null, 2)`. -/
def stringifyPretty (v : Json) : String := String.mk (serJson [' ', ' '] [] v)

/-- Look up a key in an association list, the model of a JS object property read. -/
def lookupKey {α : Type} : List (String × α) → String → Option α
  | [], _ => none
  | (k', v') :: t, k => if k' = k then some v' else lookupKey t k

/-- Set a key in an association list: replace the value in place if the key is
present (JS keeps the first insertion position), append otherwise. -/
def setKey {α : Type} : List (String × α) → String → α → List (String × α)
  | [], k, v => [(k, v)]
  | (k', v') :: t, k, v => if k' = k then (k, v) :: t else (k', v') :: setKey t k v

/-- Delete a key from an association list, the model of the JS `delete` operator. -/
def delKey {α : Type} : List (String × α) → String → List (String × α)
  | [], _ => []
  | (k', v') :: t, k => if k' = k then delKey t k else (k', v') :: delKey t k

/-- Whitespace in the sense of the JSON grammar. -/
def isWsChar (c : Char) : Bool :=
  c = ' ' || c = Char.ofNat 10 || c = Char.ofNat 9 || c = Char.ofNat 13

/-- Drop leading JSON whitespace. -/
def skipWs : List Char → List Char
  | [] => []
  | c :: cs => if isWsChar c then skipWs cs else c :: cs

/-- Numeric value of a hexadecimal digit character. -/
def hexVal (c : Char) : Option Nat :=
  if 48 ≤ c.toNat ∧ c.toNat ≤ 57 then some (c.toNat - 48)
  else if 97 ≤ c.toNat ∧ c.toNat ≤ 102 then some (c.toNat - 87)
  else if 65 ≤ c.toNat ∧ c.toNat ≤ 70 then some (c.toNat - 55)
  else none

/-- Unescaped character for the single-letter JSON string escapes. -/
def unescapeChar (c : Char) : Option Char :=
  if c = qchar then some qchar
  else if c = bslash then some bslash
  else if c = '/' then some '/'
  else if c = 'b' then some (Char.ofNat 8)
  else if c = 'f' then some (Char.ofNat 12)
  else if c = 'n' then some (Char.ofNat 10)
  else if c = 'r' then some (Char.ofNat 13)
  else if c = 't' then some (Char.ofNat 9)
  else none

/-- Parse the body of a JSON string literal after the opening quote, returning
the decoded characters and the input after the closing quote.  Raw control
characters are rejected, as `JSON.parse` rejects them. -/
def parseStrBody : List Char → Option (List Char × List Char)
  | [] => none
  | c :: cs =>
    if c = qchar then some ([], cs)
    else if c = bslash then
      match cs with
      | [] => none
      | e :: cs2 =>
        if e = 'u' then
          match cs2 with
          | h1 :: h2 :: h3 :: h4 :: cs3 =>
            match hexVal h1, hexVal h2, hexVal h3, hexVal h4 with
            | some a, some b, some c3, some d =>
              (parseStrBody cs3).map
                (fun p => (Char.ofNat (((a * 16 + b) * 16 + c3) * 16 + d) :: p.1, p.2))
            | _, _, _, _ => none
          | _ => none
        else
          match unescapeChar e with
          | some u => (parseStrBody cs2).map (fun p => (u :: p.1, p.2))
          | none => none
    else if c.toNat < 32 then none
    else (parseStrBody cs).map (fun p => (c :: p.1, p.2))

/-- Accumulate a run of decimal digits, stopping at the first non-digit. -/
def parseNatAcc (acc : Nat) : List Char → Nat × List Char
  | [] => (acc, [])
  | c :: cs =>
    if c.isDigit then parseNatAcc (acc * 10 + (c.toNat - 48)) cs else (acc, c :: cs)

/-- Rebuild an object from its parsed members with JS object semantics: a
duplicated key keeps its first position but the later value wins. -/
def objFromPairsAux (acc : List (String × Json)) : List (String × Json) → List (String × Json)
  | [] => acc
  | (k, v) :: t => objFromPairsAux (setKey acc k v) t

/-- Object built from parsed members. -/
def objFromPairs (ps : List (String × Json)) : List (String × Json) := objFromPairsAux [] ps

mutual

/-- Recursive-descent parse of one JSON value, following the `JSON.parse`
grammar restricted to integer numerals.  The fuel argument bounds the
recursion depth; `parseJson` supplies enough for any input. -/
def parseValue (fuel : Nat) (l : List Char) : Option (Json × List Char) :=
  if _hf : fuel = 0 then none else
    let fuel := fuel - 1
    match skipWs l with
    | [] => none
    | c :: cs =>
      if c = qchar then
        (parseStrBody cs).map (fun p => (Json.str (String.mk p.1), p.2))
      else if c = lbrace then parseObjRest fuel cs
      else if c = lbrack then parseArrRest fuel cs
      else if c = '-' then
        match cs with
        | d :: _ =>
          if d.isDigit then
            (fun p => some (Json.num (-(p.1 : Int)), p.2)) (parseNatAcc 0 cs)
          else none
        | [] => none
      else if c.isDigit then
        (fun p => some (Json.num (p.1 : Int), p.2)) (parseNatAcc 0 (c :: cs))
      else if c = 'n' then
        match cs with
        | 'u' :: 'l' :: 'l' :: r => some (Json.null, r)
        | _ => none
      else if c = 't' then
        match cs with
        | 'r' :: 'u' :: 'e' :: r => some (Json.bool true, r)
        | _ => none
      else if c = 'f' then
        match cs with
        | 'a' :: 'l' :: 's' :: 'e' :: r => some (Json.bool false, r)
        | _ => none
      else none

/-- Parse the remainder of an array after the opening bracket. -/
def parseArrRest (fuel : Nat) (l : List Char) : Option (Json × List Char) :=
  if _hf : fuel = 0 then none else
    let fuel := fuel - 1
    match skipWs l with
    | [] => none
    | c :: cs =>
      if c = rbrack then some (Json.arr [], cs)
      else
        match parseValue fuel (c :: cs) with
        | some (v, r) =>
          (parseArrItems fuel r).map (fun p => (Json.arr (v :: p.1), p.2))
        | none => none

/-- Parse the items of an array after the first one: a comma-item list or the
closing bracket. -/
def parseArrItems (fuel : Nat) (l : List Char) : Option (List Json × List Char) :=
  if _hf : fuel = 0 then none else
    let fuel := fuel - 1
    match skipWs l with
    | [] => none
    | c :: cs =>
      if c = rbrack then some ([], cs)
      else if c = ',' then
        match parseValue fuel cs with
        | some (v, r) => (parseArrItems fuel r).map (fun p => (v :: p.1, p.2))
        | none => none
      else none

/-- Parse the remainder of an object after the opening brace. -/
def parseObjRest (fuel : Nat) (l : List Char) : Option (Json × List Char) :=
  if _hf : fuel = 0 then none else
    let fuel := fuel - 1
    match skipWs l with
    | [] => none
    | c :: cs =>
      if c = rbrace then some (Json.obj [], cs)
      else if c = qchar then
        match parseStrBody cs with
        | some (k, r1) =>
          match skipWs r1 with
          | c2 :: r2 =>
            if c2 = ':' then
              match parseValue fuel r2 with
              | some (v, r3) =>
                (parseObjItems fuel r3).map
                  (fun p => (Json.obj (objFromPairs ((String.mk k, v) :: p.1)), p.2))
              | none => none
            else none
          | [] => none
        | none => none
      else none

/-- Parse the members of an object after the first one. -/
def parseObjItems (fuel : Nat) (l : List Char) : Option (List (String × Json) × List Char) :=
  if _hf : fuel = 0 then none else
    let fuel := fuel - 1
    match skipWs l with
    | [] => none
    | c :: cs =>
      if c = rbrace then some ([], cs)
      else if c = ',' then
        match skipWs cs with
        | c2 :: cs2 =>
          if c2 = qchar then
            match parseStrBody cs2 with
            | some (k, r1) =>
              match skipWs r1 with
              | c3 :: r2 =>
                if c3 = ':' then
                  match parseValue fuel r2 with
                  | some (v, r3) =>
                    (parseObjItems fuel r3).map
                      (fun p => ((String.mk k, v) :: p.1, p.2))
                  | none => none
                else none
              | [] => none
            | none => none
          else none
        | [] => none
      else none

end

/-- Model of `JSON.parse`: parse a full value and require that only whitespace
remains.  Returns `none` exactly when `JSON.parse` would throw. -/
def parseJson (s : String) : Option Json :=
  match parseValue (2 * s.data.length + 3) s.data with
  | some (v, r) => if skipWs r = [] then some v else none
  | none => none

/-- Characters that are all JSON whitespace. -/
def AllWs (l : List Char) : Prop := ∀ c ∈ l, isWsChar c = true

/-- Lists that do not begin with a decimal digit (the empty list included). -/
def HeadNotDigit (l : List Char) : Prop := ∀ c cs, l = c :: cs → c.isDigit = false

theorem skipWs_append_ws {w : List Char} (hw : AllWs w) (l : List Char) :
    skipWs (w ++ l) = skipWs l := by
  induction w with
  | nil => rfl
  | cons c cs ih =>
    have hc : isWsChar c = true := hw c (by simp)
    have hcs : AllWs cs := fun x hx => hw x (by simp [hx])
    simp [skipWs, hc, ih hcs]

theorem skipWs_cons_not {c : Char} (hc : isWsChar c = false) (cs : List Char) :
    skipWs (c :: cs) = c :: cs := by
  simp [skipWs, hc]

theorem hexVal_hexDigitChar {n : Nat} (h : n < 16) :
    hexVal (hexDigitChar n) = some n := by
  interval_cases n <;> decide

theorem toNat_ofNat_small {m : Nat} (h : m < 55296) : (Char.ofNat m).toNat = m := by
  unfold Char.ofNat
  have hv : m.isValidChar := Or.inl h
  rw [dif_pos hv]
  simp [Char.toNat, Char.ofNatAux, UInt32.toNat, BitVec.toNat_ofNatLt]

theorem parseStrBody_quote (cs : List Char) : parseStrBody (qchar :: cs) = some ([], cs) := by
  conv_lhs => rw [parseStrBody.eq_def]
  simp

theorem parseStrBody_esc (u : Char) {e : Char} (he : ¬(e = 'u')) (hu : unescapeChar e = some u)
    (cs : List Char) :
    parseStrBody (bslash :: e :: cs) = (parseStrBody cs).map (fun p => (u :: p.1, p.2)) := by
  conv_lhs => rw [parseStrBody.eq_def]
  simp +decide [he, hu]

theorem parseStrBody_hex {h1 h2 h3 h4 : Char} {a b c3 d : Nat}
    (ha : hexVal h1 = some a) (hb : hexVal h2 = some b)
    (hc : hexVal h3 = some c3) (hd : hexVal h4 = some d) (cs : List Char) :
    parseStrBody (bslash :: 'u' :: h1 :: h2 :: h3 :: h4 :: cs)
      = (parseStrBody cs).map
          (fun p => (Char.ofNat (((a * 16 + b) * 16 + c3) * 16 + d) :: p.1, p.2)) := by
  conv_lhs => rw [parseStrBody.eq_def]
  simp +decide [ha, hb, hc, hd]

theorem parseStrBody_plain {c : Char} (h1 : ¬(c = qchar)) (h2 : ¬(c = bslash))
    (h3 : ¬(c.toNat < 32)) (cs : List Char) :
    parseStrBody (c :: cs) = (parseStrBody cs).map (fun p => (c :: p.1, p.2)) := by
  conv_lhs => rw [parseStrBody.eq_def]
  simp [h1, h2, h3]

theorem parseStrBody_escape (s : List Char) (rest : List Char) :
    parseStrBody (escapeList s ++ (qchar :: rest)) = some (s, rest) := by
  induction s with
  | nil => simpa [escapeList] using parseStrBody_quote rest
  | cons c cs ih =>
    have hstep : escapeList (c :: cs) ++ (qchar :: rest)
        = escapeChar c ++ (escapeList cs ++ (qchar :: rest)) := by
      simp [escapeList]
    rw [hstep]
    by_cases e1 : c = qchar
    · subst e1
      have : escapeChar qchar = [bslash, qchar] := by simp [escapeChar]
      rw [this, List.cons_append, List.cons_append, List.nil_append,
        parseStrBody_esc qchar (by decide) (by decide), ih]
      rfl
    · by_cases e2 : c = bslash
      · subst e2
        have : escapeChar bslash = [bslash, bslash] := by simp [escapeChar, qchar, bslash]
        rw [this, List.cons_append, List.cons_append, List.nil_append,
          parseStrBody_esc (bslash) (by decide) (by decide), ih]
        rfl
      · by_cases e3 : c = Char.ofNat 8
        · subst e3
          have : escapeChar (Char.ofNat 8) = [bslash, 'b'] := by simp [escapeChar, qchar, bslash]
          rw [this, List.cons_append, List.cons_append, List.nil_append,
            parseStrBody_esc (Char.ofNat 8) (by decide) (by decide), ih]
          rfl
        · by_cases e4 : c = Char.ofNat 12
          · subst e4
            have : escapeChar (Char.ofNat 12) = [bslash, 'f'] := by
              simp [escapeChar, qchar, bslash]
            rw [this, List.cons_append, List.cons_append, List.nil_append,
              parseStrBody_esc (Char.ofNat 12) (by decide) (by decide), ih]
            rfl
          · by_cases e5 : c = Char.ofNat 10
            · subst e5
              have : escapeChar (Char.ofNat 10) = [bslash, 'n'] := by
                simp [escapeChar, qchar, bslash]
              rw [this, List.cons_append, List.cons_append, List.nil_append,
                parseStrBody_esc (Char.ofNat 10) (by decide) (by decide), ih]
              rfl
            · by_cases e6 : c = Char.ofNat 13
              · subst e6
                have : escapeChar (Char.ofNat 13) = [bslash, 'r'] := by
                  simp [escapeChar, qchar, bslash]
                rw [this, List.cons_append, List.cons_append, List.nil_append,
                  parseStrBody_esc (Char.ofNat 13) (by decide) (by decide), ih]
                rfl
              · by_cases e7 : c = Char.ofNat 9
                · subst e7
                  have : escapeChar (Char.ofNat 9) = [bslash, 't'] := by
                    simp [escapeChar, qchar, bslash]
                  rw [this, List.cons_append, List.cons_append, List.nil_append,
                    parseStrBody_esc (Char.ofNat 9) (by decide) (by decide), ih]
                  rfl
                · by_cases e8 : c.toNat < 32
                  · have hch : escapeChar c
                        = bslash :: 'u' :: '0' :: '0' :: hexByte c.toNat := by
                      simp [escapeChar, e1, e2, e3, e4, e5, e6, e7, e8]
                    have hv3 : hexVal (hexDigitChar (c.toNat / 16)) = some (c.toNat / 16) :=
                      hexVal_hexDigitChar (by omega)
                    have hv4 : hexVal (hexDigitChar (c.toNat % 16)) = some (c.toNat % 16) :=
                      hexVal_hexDigitChar (by omega)
                    rw [hch]
                    simp only [hexByte, List.cons_append, List.nil_append]
                    have hz : hexVal '0' = some 0 := by decide
                    rw [parseStrBody_hex hz hz hv3 hv4, ih]
                    have harith : ((0 * 16 + 0) * 16 + c.toNat / 16) * 16 + c.toNat % 16
                        = c.toNat := by omega
                    rw [harith, Char.ofNat_toNat]
                    rfl
                  · have hch : escapeChar c = [c] := by
                      simp [escapeChar, e1, e2, e3, e4, e5, e6, e7, e8]
                    rw [hch, List.cons_append, List.nil_append,
                      parseStrBody_plain e1 e2 e8, ih]
                    rfl


theorem natChars_eq (n : Nat) : natChars n
    = if n < 10 then [Char.ofNat (48 + n)]
      else natChars (n / 10) ++ [Char.ofNat (48 + n % 10)] := by
  rw [natChars]
  exact dite_eq_ite

theorem natChars_digits (n : Nat) : ∀ c ∈ natChars n, c.isDigit = true := by
  induction n using Nat.strong_induction_on with
  | _ n ih =>
    rw [natChars_eq]
    by_cases h : n < 10
    · simp only [if_pos h, List.mem_singleton]
      rintro c rfl
      interval_cases n <;> decide
    · simp only [if_neg h, List.mem_append, List.mem_singleton]
      rintro c (hc | rfl)
      · exact ih (n / 10) (Nat.div_lt_self (by omega) (by omega)) c hc
      · have h10 : n % 10 < 10 := Nat.mod_lt _ (by omega)
        interval_cases hm : n % 10 <;> simp_all

theorem natChars_ne_nil (n : Nat) : natChars n ≠ [] := by
  rw [natChars_eq]
  by_cases h : n < 10 <;> simp [h]

theorem parseNatAcc_eq (ds : List Char) (hds : ∀ c ∈ ds, c.isDigit = true)
    (rest : List Char) (hrest : HeadNotDigit rest) (acc : Nat) :
    parseNatAcc acc (ds ++ rest)
      = (ds.foldl (fun a c => a * 10 + (c.toNat - 48)) acc, rest) := by
  induction ds generalizing acc with
  | nil =>
    cases rest with
    | nil => simp [parseNatAcc]
    | cons c cs =>
      have : c.isDigit = false := hrest c cs rfl
      simp [parseNatAcc, this]
  | cons d ds ih =>
    have hd : d.isDigit = true := hds d (by simp)
    have hds' : ∀ c ∈ ds, c.isDigit = true := fun c hc => hds c (by simp [hc])
    simp [parseNatAcc, hd, ih hds']

theorem foldl_natChars (n : Nat) : ∀ acc : Nat,
    (natChars n).foldl (fun a c => a * 10 + (c.toNat - 48)) acc
      = acc * 10 ^ (natChars n).length + n := by
  induction n using Nat.strong_induction_on with
  | _ n ih =>
    intro acc
    rw [natChars_eq]
    by_cases h : n < 10
    · have ht : (Char.ofNat (48 + n)).toNat = 48 + n := toNat_ofNat_small (by omega)
      simp [if_pos h, ht]
    · have hlt : n / 10 < n := Nat.div_lt_self (by omega) (by omega)
      have ht : (Char.ofNat (48 + n % 10)).toNat = 48 + n % 10 := toNat_ofNat_small (by omega)
      simp only [if_neg h, List.foldl_append, List.foldl_cons, List.foldl_nil,
        List.length_append, List.length_cons, List.length_nil, ih (n / 10) hlt acc, ht]
      have hsub : 48 + n % 10 - 48 = n % 10 := by omega
      rw [hsub, pow_succ]
      ring_nf
      rw [Nat.add_assoc]
      congr 1
      omega

theorem parseNatAcc_natChars (n : Nat) (rest : List Char) (hrest : HeadNotDigit rest) :
    parseNatAcc 0 (natChars n ++ rest) = (n, rest) := by
  rw [parseNatAcc_eq (natChars n) (natChars_digits n) rest hrest 0, foldl_natChars]
  simp

/-- Test whether an association list of JSON members contains a key. -/
def hasKeyB : List (String × Json) → String → Bool
  | [], _ => false
  | (k', _) :: t, k => k' == k || hasKeyB t k

/-- Keys of a member list are pairwise distinct. -/
def nodupKeysB : List (String × Json) → Bool
  | [] => true
  | (k, _) :: t => !hasKeyB t k && nodupKeysB t

mutual

/-- Well-formedness of a JSON value as produced by `JSON.parse`: every object
in it has pairwise distinct keys. -/
def Json.wfB : Json → Bool
  | .null => true
  | .bool _ => true
  | .num _ => true
  | .str _ => true
  | .arr vs => Json.wfListB vs
  | .obj ps => nodupKeysB ps && Json.wfFieldsB ps

/-- Well-formedness of a list of array items. -/
def Json.wfListB : List Json → Bool
  | [] => true
  | v :: vs => Json.wfB v && Json.wfListB vs

/-- Well-formedness of the values of a member list. -/
def Json.wfFieldsB : List (String × Json) → Bool
  | [] => true
  | (_, v) :: ps => Json.wfB v && Json.wfFieldsB ps

end

theorem hasKeyB_false_forall {l : List (String × Json)} {k : String}
    (h : hasKeyB l k = false) : ∀ p ∈ l, ¬(p.1 = k) := by
  induction l with
  | nil => simp
  | cons q t ih =>
    obtain ⟨k', v'⟩ := q
    simp only [hasKeyB, Bool.or_eq_false_iff, beq_eq_false_iff_ne, ne_eq] at h
    intro p hp
    rcases List.mem_cons.mp hp with rfl | hp'
    · exact h.1
    · exact ih h.2 p hp'

theorem lookupKey_eq_none_of_hasKeyB {l : List (String × Json)} {k : String}
    (h : hasKeyB l k = false) : lookupKey l k = none := by
  induction l with
  | nil => rfl
  | cons q t ih =>
    obtain ⟨k', v'⟩ := q
    simp only [hasKeyB, Bool.or_eq_false_iff, beq_eq_false_iff_ne, ne_eq] at h
    simp [lookupKey, h.1, ih h.2]

theorem lookupKey_append_none {α : Type} {acc : List (String × α)} {k : String}
    (h : lookupKey acc k = none) (l : List (String × α)) :
    lookupKey (acc ++ l) k = lookupKey l k := by
  induction acc with
  | nil => rfl
  | cons q t ih =>
    obtain ⟨k', v'⟩ := q
    by_cases hk : k' = k
    · simp [lookupKey, hk] at h
    · simp only [List.cons_append]
      simp only [lookupKey, hk, if_false] at h ⊢
      exact ih h

theorem setKey_append {α : Type} {acc : List (String × α)} {k : String}
    (h : lookupKey acc k = none) (v : α) : setKey acc k v = acc ++ [(k, v)] := by
  induction acc with
  | nil => rfl
  | cons q t ih =>
    obtain ⟨k', v'⟩ := q
    by_cases hk : k' = k
    · simp [lookupKey, hk] at h
    · simp only [lookupKey, hk, if_false] at h
      simp [setKey, hk, ih h]

theorem objFromPairsAux_eq (l : List (String × Json)) :
    ∀ acc : List (String × Json), (∀ p ∈ l, lookupKey acc p.1 = none) →
    nodupKeysB l = true → objFromPairsAux acc l = acc ++ l := by
  induction l with
  | nil => intro acc _ _; simp [objFromPairsAux]
  | cons q t ih =>
    intro acc hdisj hnd
    obtain ⟨k, v⟩ := q
    simp only [nodupKeysB, Bool.and_eq_true, Bool.not_eq_true'] at hnd
    have hacc : lookupKey acc k = none := hdisj (k, v) (by simp)
    have hstep : setKey acc k v = acc ++ [(k, v)] := setKey_append hacc v
    have hdisj' : ∀ p ∈ t, lookupKey (acc ++ [(k, v)]) p.1 = none := by
      intro p hp
      have h1 : lookupKey acc p.1 = none := hdisj p (by simp [hp])
      rw [lookupKey_append_none h1]
      have hne : ¬(p.1 = k) := hasKeyB_false_forall hnd.1 p hp
      have hne' : ¬(k = p.1) := fun hc => hne hc.symm
      simp [lookupKey, hne']
    rw [objFromPairsAux, hstep, ih (acc ++ [(k, v)]) hdisj' hnd.2]
    simp

theorem objFromPairs_eq {l : List (String × Json)} (hnd : nodupKeysB l = true) :
    objFromPairs l = l := by
  have := objFromPairsAux_eq l [] (by simp [lookupKey]) hnd
  simpa [objFromPairs] using this

theorem digit_ne_char {c x : Char} (hd : c.isDigit = true) (hx : x.isDigit = false) :
    ¬(c = x) := by
  intro h
  rw [h, hx] at hd
  cases hd

theorem digit_not_ws {c : Char} (hd : c.isDigit = true) : isWsChar c = false := by
  cases hws : isWsChar c
  · rfl
  · exfalso
    simp only [isWsChar, Bool.or_eq_true, decide_eq_true_eq] at hws
    rcases hws with ((rfl | rfl) | rfl) | rfl <;> simp at hd

theorem AllWs_nil : AllWs [] := by intro c hc; cases hc

theorem AllWs_append {a b : List Char} (ha : AllWs a) (hb : AllWs b) : AllWs (a ++ b) :=
  fun c hc => Or.elim (List.mem_append.mp hc) (ha c) (hb c)

theorem AllWs_itemWs {g ind : List Char} (hg : AllWs g) (hind : AllWs ind) :
    AllWs (itemWs g ind) := by
  unfold itemWs
  split
  · exact AllWs_nil
  · intro c hc
    rcases List.mem_cons.mp hc with rfl | hc'
    · decide
    · exact AllWs_append hind hg c hc'

theorem AllWs_closeWs {g ind : List Char} (hind : AllWs ind) : AllWs (closeWs g ind) := by
  unfold closeWs
  split
  · exact AllWs_nil
  · intro c hc
    rcases List.mem_cons.mp hc with rfl | hc'
    · decide
    · exact hind c hc'

theorem colonWs_eq (g : List Char) :
    colonWs g = ':' :: (if g.isEmpty then [] else [' ']) := by
  unfold colonWs
  split <;> simp_all

theorem AllWs_colonTail (g : List Char) : AllWs (if g.isEmpty then [] else [' ']) := by
  split
  · exact AllWs_nil
  · intro c hc
    rcases List.mem_cons.mp hc with rfl | hc'
    · decide
    · cases hc'

theorem serJson_head (g ind : List Char) (v : Json) :
    ∃ c cs, serJson g ind v = c :: cs ∧ isWsChar c = false ∧ ¬(c = rbrack)
      ∧ ¬(c = rbrace) := by
  cases v with
  | null => refine ⟨'n', _, rfl, by decide, by decide, by decide⟩
  | bool b =>
    cases b
    · refine ⟨'f', _, rfl, by decide, by decide, by decide⟩
    · refine ⟨'t', _, rfl, by decide, by decide, by decide⟩
  | num i =>
    by_cases hi : i < 0
    · refine ⟨'-', natChars i.natAbs, ?_, by decide, by decide, by decide⟩
      simp [serJson, intChars, hi]
    · obtain ⟨d, ds, hd⟩ : ∃ d ds, natChars i.natAbs = d :: ds := by
        cases hnc : natChars i.natAbs with
        | nil => exact absurd hnc (natChars_ne_nil _)
        | cons d ds => exact ⟨d, ds, rfl⟩
      have hdig : d.isDigit = true := natChars_digits _ d (by rw [hd]; simp)
      refine ⟨d, ds, ?_, digit_not_ws hdig, digit_ne_char hdig (by decide),
        digit_ne_char hdig (by decide)⟩
      simp [serJson, intChars, hi, hd]
  | str s => exact ⟨qchar, _, rfl, by decide, by decide, by decide⟩
  | arr vs =>
    cases vs with
    | nil => exact ⟨lbrack, _, rfl, by decide, by decide, by decide⟩
    | cons v vs => exact ⟨lbrack, _, rfl, by decide, by decide, by decide⟩
  | obj ps =>
    cases ps with
    | nil => exact ⟨lbrace, _, rfl, by decide, by decide, by decide⟩
    | cons p ps => exact ⟨lbrace, _, rfl, by decide, by decide, by decide⟩

theorem serJson_ne_nil (g ind : List Char) (v : Json) : serJson g ind v ≠ [] := by
  obtain ⟨c, cs, h, -, -, -⟩ := serJson_head g ind v
  simp [h]

theorem hnd_serItems {g ind : List Char} (vs : List Json) {c0 : Char}
    (hc0 : c0.isDigit = false) (rest : List Char) :
    HeadNotDigit (serItems g ind vs ++ closeWs g ind ++ c0 :: rest) := by
  cases vs with
  | cons v vs =>
    intro c cs hc
    simp only [serItems, List.cons_append] at hc
    cases hc
    decide
  | nil =>
    simp only [serItems, List.nil_append]
    unfold closeWs
    split
    · intro c cs hc
      simp only [List.nil_append] at hc
      cases hc
      exact hc0
    · intro c cs hc
      simp only [List.cons_append] at hc
      cases hc
      decide

theorem hnd_serMembers {g ind : List Char} (ps : List (String × Json)) {c0 : Char}
    (hc0 : c0.isDigit = false) (rest : List Char) :
    HeadNotDigit (serMembers g ind ps ++ closeWs g ind ++ c0 :: rest) := by
  cases ps with
  | cons p ps =>
    intro c cs hc
    simp only [serMembers, List.cons_append] at hc
    cases hc
    decide
  | nil =>
    simp only [serMembers, List.nil_append]
    unfold closeWs
    split
    · intro c cs hc
      simp only [List.nil_append] at hc
      cases hc
      exact hc0
    · intro c cs hc
      simp only [List.cons_append] at hc
      cases hc
      decide

theorem parseValue_str {l cs : List Char} {f : Nat} (h : skipWs l = qchar :: cs) :
    parseValue (f + 1) l
      = (parseStrBody cs).map (fun p => (Json.str (String.mk p.1), p.2)) := by
  rw [parseValue.eq_def]
  simp [h]

theorem parseValue_objCase {l cs : List Char} {f : Nat} (h : skipWs l = lbrace :: cs) :
    parseValue (f + 1) l = parseObjRest f cs := by
  rw [parseValue.eq_def]
  simp +decide [h]

theorem parseValue_arrCase {l cs : List Char} {f : Nat} (h : skipWs l = lbrack :: cs) :
    parseValue (f + 1) l = parseArrRest f cs := by
  rw [parseValue.eq_def]
  simp +decide [h]

theorem parseValue_negCase {l : List Char} {d : Char} {cs : List Char} {f : Nat}
    (h : skipWs l = '-' :: d :: cs) (hd : d.isDigit = true) :
    parseValue (f + 1) l
      = some (Json.num (-((parseNatAcc 0 (d :: cs)).1 : Int)), (parseNatAcc 0 (d :: cs)).2) := by
  rw [parseValue.eq_def]
  simp +decide [h, hd]

theorem parseValue_digitCase {l : List Char} {c : Char} {cs : List Char} {f : Nat}
    (h : skipWs l = c :: cs) (hc : c.isDigit = true) :
    parseValue (f + 1) l
      = some (Json.num ((parseNatAcc 0 (c :: cs)).1 : Int), (parseNatAcc 0 (c :: cs)).2) := by
  have h1 : ¬(c = qchar) := digit_ne_char hc (by decide)
  have h2 : ¬(c = lbrace) := digit_ne_char hc (by decide)
  have h3 : ¬(c = lbrack) := digit_ne_char hc (by decide)
  have h4 : ¬(c = '-') := digit_ne_char hc (by decide)
  rw [parseValue.eq_def]
  simp [h, h1, h2, h3, h4, hc]

theorem parseValue_nullCase {l r : List Char} {f : Nat}
    (h : skipWs l = 'n' :: 'u' :: 'l' :: 'l' :: r) :
    parseValue (f + 1) l = some (Json.null, r) := by
  rw [parseValue.eq_def]
  simp +decide [h]

theorem parseValue_trueCase {l r : List Char} {f : Nat}
    (h : skipWs l = 't' :: 'r' :: 'u' :: 'e' :: r) :
    parseValue (f + 1) l = some (Json.bool true, r) := by
  rw [parseValue.eq_def]
  simp +decide [h]

theorem parseValue_falseCase {l r : List Char} {f : Nat}
    (h : skipWs l = 'f' :: 'a' :: 'l' :: 's' :: 'e' :: r) :
    parseValue (f + 1) l = some (Json.bool false, r) := by
  rw [parseValue.eq_def]
  simp +decide [h]

theorem parseArrRest_nilCase {l cs : List Char} {f : Nat} (h : skipWs l = rbrack :: cs) :
    parseArrRest (f + 1) l = some (Json.arr [], cs) := by
  rw [parseArrRest.eq_def]
  simp [h]

theorem parseArrRest_consCase {l : List Char} {c : Char} {cs : List Char} {f : Nat}
    (h : skipWs l = c :: cs) (hc : ¬(c = rbrack)) :
    parseArrRest (f + 1) l
      = match parseValue f (c :: cs) with
        | some (v, r) => (parseArrItems f r).map (fun p => (Json.arr (v :: p.1), p.2))
        | none => none := by
  rw [parseArrRest.eq_def]
  simp [h, hc]

theorem parseArrItems_closeCase {l cs : List Char} {f : Nat} (h : skipWs l = rbrack :: cs) :
    parseArrItems (f + 1) l = some ([], cs) := by
  rw [parseArrItems.eq_def]
  simp [h]

theorem parseArrItems_commaCase {l cs : List Char} {f : Nat} (h : skipWs l = ',' :: cs) :
    parseArrItems (f + 1) l
      = match parseValue f cs with
        | some (v, r) => (parseArrItems f r).map (fun p => (v :: p.1, p.2))
        | none => none := by
  rw [parseArrItems.eq_def]
  simp +decide [h]

theorem parseObjRest_nilCase {l cs : List Char} {f : Nat} (h : skipWs l = rbrace :: cs) :
    parseObjRest (f + 1) l = some (Json.obj [], cs) := by
  rw [parseObjRest.eq_def]
  simp [h]

theorem parseObjRest_keyCase {l cs k r1 r2 : List Char} {f : Nat}
    (h : skipWs l = qchar :: cs)
    (hk : parseStrBody cs = some (k, r1))
    (h2 : skipWs r1 = ':' :: r2) :
    parseObjRest (f + 1) l
      = match parseValue f r2 with
        | some (v, r3) => (parseObjItems f r3).map
            (fun p => (Json.obj (objFromPairs ((String.mk k, v) :: p.1)), p.2))
        | none => none := by
  rw [parseObjRest.eq_def]
  simp +decide [h, hk, h2]

theorem parseObjItems_closeCase {l cs : List Char} {f : Nat} (h : skipWs l = rbrace :: cs) :
    parseObjItems (f + 1) l = some ([], cs) := by
  rw [parseObjItems.eq_def]
  simp [h]

theorem parseObjItems_commaCase {l cs cs2 k r1 r2 : List Char} {f : Nat}
    (h : skipWs l = ',' :: cs)
    (h1 : skipWs cs = qchar :: cs2)
    (hk : parseStrBody cs2 = some (k, r1))
    (h2 : skipWs r1 = ':' :: r2) :
    parseObjItems (f + 1) l
      = match parseValue f r2 with
        | some (v, r3) => (parseObjItems f r3).map
            (fun p => ((String.mk k, v) :: p.1, p.2))
        | none => none := by
  rw [parseObjItems.eq_def]
  simp +decide [h, h1, hk, h2]

/-- Round-trip statement for one value at a given fuel: the parser consumes
exactly the serialised form (after any whitespace prefix) and returns the
remaining input untouched. -/
def RTV (fuel : Nat) : Prop :=
  ∀ (v : Json) (g ind w rest : List Char), Json.wfB v = true →
    AllWs g → AllWs ind → AllWs w → HeadNotDigit rest →
    2 * (w ++ serJson g ind v ++ rest).length + 2 ≤ fuel →
    parseValue fuel (w ++ serJson g ind v ++ rest) = some (v, rest)

/-- Round-trip statement for the serialised tail of an array. -/
def RTA (fuel : Nat) : Prop :=
  ∀ (vs : List Json) (g ind rest : List Char), Json.wfListB vs = true →
    AllWs g → AllWs ind →
    2 * (serItems g ind vs ++ closeWs g ind ++ rbrack :: rest).length + 3 ≤ fuel →
    parseArrItems fuel (serItems g ind vs ++ closeWs g ind ++ rbrack :: rest)
      = some (vs, rest)

/-- Round-trip statement for the serialised tail of an object. -/
def RTO (fuel : Nat) : Prop :=
  ∀ (ps : List (String × Json)) (g ind rest : List Char), Json.wfFieldsB ps = true →
    AllWs g → AllWs ind →
    2 * (serMembers g ind ps ++ closeWs g ind ++ rbrace :: rest).length + 3 ≤ fuel →
    parseObjItems fuel (serMembers g ind ps ++ closeWs g ind ++ rbrace :: rest)
      = some (ps, rest)

theorem parseSerAll : ∀ fuel, RTV fuel ∧ RTA fuel ∧ RTO fuel := by
  intro fuel
  induction fuel using Nat.strong_induction_on with
  | _ fuel ih =>
    refine ⟨?_, ?_, ?_⟩
    · -- RTV
      intro v g ind w rest hwf hg hind hw hrest hfuel
      obtain ⟨f, rfl⟩ : ∃ k, fuel = k + 1 := ⟨fuel - 1, by omega⟩
      cases v with
      | null =>
        have hskip : skipWs (w ++ serJson g ind Json.null ++ rest)
            = 'n' :: 'u' :: 'l' :: 'l' :: rest := by
          rw [List.append_assoc, skipWs_append_ws hw]
          simp only [serJson, nullChars, List.cons_append, List.nil_append]
          exact skipWs_cons_not (by decide) _
        rw [parseValue_nullCase hskip]
      | bool b =>
        cases b with
        | true =>
          have hskip : skipWs (w ++ serJson g ind (Json.bool true) ++ rest)
              = 't' :: 'r' :: 'u' :: 'e' :: rest := by
            rw [List.append_assoc, skipWs_append_ws hw]
            simp only [serJson, boolChars, List.cons_append, List.nil_append]
            exact skipWs_cons_not (by decide) _
          rw [parseValue_trueCase hskip]
        | false =>
          have hskip : skipWs (w ++ serJson g ind (Json.bool false) ++ rest)
              = 'f' :: 'a' :: 'l' :: 's' :: 'e' :: rest := by
            rw [List.append_assoc, skipWs_append_ws hw]
            simp only [serJson, boolChars, List.cons_append, List.nil_append]
            exact skipWs_cons_not (by decide) _
          rw [parseValue_falseCase hskip]
      | num i =>
        obtain ⟨d, ds, hnc⟩ : ∃ d ds, natChars i.natAbs = d :: ds := by
          cases hnc : natChars i.natAbs with
          | nil => exact absurd hnc (natChars_ne_nil _)
          | cons d ds => exact ⟨d, ds, rfl⟩
        have hdig : d.isDigit = true := natChars_digits _ d (by rw [hnc]; simp)
        by_cases hi : i < 0
        · have hser : serJson g ind (Json.num i) = '-' :: natChars i.natAbs := by
            simp [serJson, intChars, hi]
          have hskip : skipWs (w ++ serJson g ind (Json.num i) ++ rest)
              = '-' :: d :: (ds ++ rest) := by
            rw [List.append_assoc, skipWs_append_ws hw, hser, hnc]
            simp only [List.cons_append]
            exact skipWs_cons_not (by decide) _
          rw [parseValue_negCase hskip hdig]
          have hacc : parseNatAcc 0 (d :: (ds ++ rest)) = (i.natAbs, rest) := by
            have : d :: (ds ++ rest) = natChars i.natAbs ++ rest := by
              rw [hnc]; simp
            rw [this]
            exact parseNatAcc_natChars _ _ hrest
          rw [hacc]
          have hcast : -((i.natAbs : Int)) = i := by omega
          show some (Json.num (-((i.natAbs : Int))), rest) = some (Json.num i, rest)
          rw [hcast]
        · have hser : serJson g ind (Json.num i) = natChars i.natAbs := by
            simp [serJson, intChars, hi]
          have hskip : skipWs (w ++ serJson g ind (Json.num i) ++ rest)
              = d :: (ds ++ rest) := by
            rw [List.append_assoc, skipWs_append_ws hw, hser, hnc]
            simp only [List.cons_append]
            exact skipWs_cons_not (digit_not_ws hdig) _
          rw [parseValue_digitCase hskip hdig]
          have hacc : parseNatAcc 0 (d :: (ds ++ rest)) = (i.natAbs, rest) := by
            have : d :: (ds ++ rest) = natChars i.natAbs ++ rest := by
              rw [hnc]; simp
            rw [this]
            exact parseNatAcc_natChars _ _ hrest
          rw [hacc]
          have hcast : ((i.natAbs : Int)) = i := by omega
          show some (Json.num ((i.natAbs : Int)), rest) = some (Json.num i, rest)
          rw [hcast]
      | str s =>
        have hskip : skipWs (w ++ serJson g ind (Json.str s) ++ rest)
            = qchar :: (escapeList s.data ++ (qchar :: rest)) := by
          rw [List.append_assoc, skipWs_append_ws hw]
          simp only [serJson, quoteChars, List.cons_append, List.append_assoc,
            List.singleton_append]
          exact skipWs_cons_not (by decide) _
        rw [parseValue_str hskip, parseStrBody_escape]
        rfl
      | arr vs =>
        cases vs with
        | nil =>
          have hskip : skipWs (w ++ serJson g ind (Json.arr []) ++ rest)
              = lbrack :: (rbrack :: rest) := by
            rw [List.append_assoc, skipWs_append_ws hw]
            simp only [serJson, List.cons_append, List.singleton_append]
            exact skipWs_cons_not (by decide) _
          rw [parseValue_arrCase hskip]
          obtain ⟨f2, rfl⟩ : ∃ f2, f = f2 + 1 := by
            refine ⟨f - 1, ?_⟩
            have := List.length_append (w ++ serJson g ind (Json.arr [])) rest
            simp only [List.length_append, serJson, List.length_cons,
              List.length_nil] at hfuel
            omega
          exact parseArrRest_nilCase (skipWs_cons_not (by decide) _)
        | cons v vs =>
          have hwfv : Json.wfB v = true ∧ Json.wfListB vs = true := by
            have : Json.wfB (Json.arr (v :: vs)) = (Json.wfB v && Json.wfListB vs) := by
              simp [Json.wfB, Json.wfListB]
            rw [this] at hwf
            exact ⟨(Bool.and_eq_true_iff.mp hwf).1, (Bool.and_eq_true_iff.mp hwf).2⟩
          have hser : serJson g ind (Json.arr (v :: vs))
              = lbrack :: (itemWs g ind ++ serJson g (ind ++ g) v ++ serItems g ind vs
                ++ closeWs g ind ++ [rbrack]) := by
            simp [serJson]
          have hassoc : (w ++ serJson g ind (Json.arr (v :: vs)) ++ rest)
              = w ++ (lbrack :: (itemWs g ind ++ (serJson g (ind ++ g) v
                ++ (serItems g ind vs ++ (closeWs g ind ++ (rbrack :: rest)))))) := by
            rw [hser]
            simp [List.append_assoc]
          obtain ⟨c, cs, hhead, hcws, hcrb, -⟩ := serJson_head g (ind ++ g) v
          have hskip : skipWs (w ++ serJson g ind (Json.arr (v :: vs)) ++ rest)
              = lbrack :: (itemWs g ind ++ (serJson g (ind ++ g) v
                ++ (serItems g ind vs ++ (closeWs g ind ++ (rbrack :: rest))))) := by
            rw [hassoc, skipWs_append_ws hw]
            exact skipWs_cons_not (by decide) _
          rw [parseValue_arrCase hskip]
          -- lengths
          have hlen : (w ++ serJson g ind (Json.arr (v :: vs)) ++ rest).length
              = w.length + (1 + ((itemWs g ind).length + ((serJson g (ind ++ g) v).length
                + ((serItems g ind vs).length + ((closeWs g ind).length
                + (1 + rest.length)))))) := by
            rw [hassoc]
            simp [List.length_append]
            omega
          have hvpos : 0 < (serJson g (ind ++ g) v).length :=
            List.length_pos.mpr (serJson_ne_nil _ _ _)
          obtain ⟨f2, rfl⟩ : ∃ f2, f = f2 + 1 := by
            refine ⟨f - 1, ?_⟩
            rw [hlen] at hfuel
            omega
          have hskip2 : skipWs (itemWs g ind ++ (serJson g (ind ++ g) v
              ++ (serItems g ind vs ++ (closeWs g ind ++ (rbrack :: rest)))))
              = c :: (cs ++ (serItems g ind vs ++ (closeWs g ind ++ (rbrack :: rest)))) := by
            rw [skipWs_append_ws (AllWs_itemWs hg hind), hhead]
            simp only [List.cons_append]
            exact skipWs_cons_not hcws _
          rw [parseArrRest_consCase hskip2 hcrb]
          have hinner : c :: (cs ++ (serItems g ind vs ++ (closeWs g ind ++ (rbrack :: rest))))
              = [] ++ serJson g (ind ++ g) v
                ++ (serItems g ind vs ++ (closeWs g ind ++ (rbrack :: rest))) := by
            rw [hhead]
            simp
          have hndrest : HeadNotDigit (serItems g ind vs
              ++ (closeWs g ind ++ (rbrack :: rest))) := by
            have := @hnd_serItems g ind vs rbrack (by decide) rest
            simpa [List.append_assoc] using this
          have hvalue : parseValue f2 ([] ++ serJson g (ind ++ g) v
              ++ (serItems g ind vs ++ (closeWs g ind ++ (rbrack :: rest))))
              = some (v, serItems g ind vs ++ (closeWs g ind ++ (rbrack :: rest))) := by
            refine (ih f2 (by omega)).1 v g (ind ++ g) [] _ hwfv.1 hg
              (AllWs_append hind hg) AllWs_nil hndrest ?_
            rw [hlen] at hfuel
            simp only [List.nil_append, List.length_append, List.length_cons]
            omega
          rw [hinner]
          simp only [hvalue]
          have hitems : parseArrItems f2 (serItems g ind vs
              ++ (closeWs g ind ++ (rbrack :: rest))) = some (vs, rest) := by
            have := (ih f2 (by omega)).2.1 vs g ind rest hwfv.2 hg hind (by
              rw [hlen] at hfuel
              simp only [List.length_append, List.length_cons]
              omega)
            simpa [List.append_assoc] using this
          rw [hitems]
          rfl
      | obj ps =>
        cases ps with
        | nil =>
          have hskip : skipWs (w ++ serJson g ind (Json.obj []) ++ rest)
              = lbrace :: (rbrace :: rest) := by
            rw [List.append_assoc, skipWs_append_ws hw]
            simp only [serJson, List.cons_append, List.singleton_append]
            exact skipWs_cons_not (by decide) _
          rw [parseValue_objCase hskip]
          obtain ⟨f2, rfl⟩ : ∃ f2, f = f2 + 1 := by
            refine ⟨f - 1, ?_⟩
            simp only [List.length_append, serJson, List.length_cons,
              List.length_nil] at hfuel
            omega
          exact parseObjRest_nilCase (skipWs_cons_not (by decide) _)
        | cons p ps =>
          obtain ⟨k, vv⟩ := p
          have hwfsplit : nodupKeysB ((k, vv) :: ps) = true
              ∧ Json.wfB vv = true ∧ Json.wfFieldsB ps = true := by
            have : Json.wfB (Json.obj ((k, vv) :: ps))
                = (nodupKeysB ((k, vv) :: ps) && (Json.wfB vv && Json.wfFieldsB ps)) := by
              simp [Json.wfB, Json.wfFieldsB]
            rw [this] at hwf
            simp only [Bool.and_eq_true] at hwf
            exact ⟨hwf.1, hwf.2.1, hwf.2.2⟩
          have hassoc : (w ++ serJson g ind (Json.obj ((k, vv) :: ps)) ++ rest)
              = w ++ (lbrace :: (itemWs g ind ++ (qchar :: (escapeList k.data
                ++ (qchar :: (colonWs g ++ (serJson g (ind ++ g) vv
                ++ (serMembers g ind ps ++ (closeWs g ind ++ (rbrace :: rest)))))))))) := by
            simp [serJson, serMember, quoteChars, List.append_assoc]
          have hskip : skipWs (w ++ serJson g ind (Json.obj ((k, vv) :: ps)) ++ rest)
              = lbrace :: (itemWs g ind ++ (qchar :: (escapeList k.data
                ++ (qchar :: (colonWs g ++ (serJson g (ind ++ g) vv
                ++ (serMembers g ind ps ++ (closeWs g ind ++ (rbrace :: rest))))))))) := by
            rw [hassoc, skipWs_append_ws hw]
            exact skipWs_cons_not (by decide) _
          rw [parseValue_objCase hskip]
          have hlen : (w ++ serJson g ind (Json.obj ((k, vv) :: ps)) ++ rest).length
              = w.length + (1 + ((itemWs g ind).length + (1 + ((escapeList k.data).length
                + (1 + ((colonWs g).length + ((serJson g (ind ++ g) vv).length
                + ((serMembers g ind ps).length + ((closeWs g ind).length
                + (1 + rest.length)))))))))) := by
            rw [hassoc]
            simp [List.length_append]
            omega
          have hvpos : 0 < (serJson g (ind ++ g) vv).length :=
            List.length_pos.mpr (serJson_ne_nil _ _ _)
          obtain ⟨f2, rfl⟩ : ∃ f2, f = f2 + 1 := by
            refine ⟨f - 1, ?_⟩
            rw [hlen] at hfuel
            omega
          have hskipkey : skipWs (itemWs g ind ++ (qchar :: (escapeList k.data
              ++ (qchar :: (colonWs g ++ (serJson g (ind ++ g) vv
              ++ (serMembers g ind ps ++ (closeWs g ind ++ (rbrace :: rest)))))))))
              = qchar :: (escapeList k.data ++ (qchar :: (colonWs g
                ++ (serJson g (ind ++ g) vv ++ (serMembers g ind ps
                ++ (closeWs g ind ++ (rbrace :: rest))))))) := by
            rw [skipWs_append_ws (AllWs_itemWs hg hind)]
            exact skipWs_cons_not (by decide) _
          have hkey : parseStrBody (escapeList k.data ++ (qchar :: (colonWs g
              ++ (serJson g (ind ++ g) vv ++ (serMembers g ind ps
              ++ (closeWs g ind ++ (rbrace :: rest)))))))
              = some (k.data, colonWs g ++ (serJson g (ind ++ g) vv
                ++ (serMembers g ind ps ++ (closeWs g ind ++ (rbrace :: rest))))) :=
            parseStrBody_escape _ _
          have hcolon : skipWs (colonWs g ++ (serJson g (ind ++ g) vv
              ++ (serMembers g ind ps ++ (closeWs g ind ++ (rbrace :: rest)))))
              = ':' :: ((if g.isEmpty then [] else [' ']) ++ (serJson g (ind ++ g) vv
                ++ (serMembers g ind ps ++ (closeWs g ind ++ (rbrace :: rest))))) := by
            rw [colonWs_eq]
            simp only [List.cons_append]
            exact skipWs_cons_not (by decide) _
          rw [parseObjRest_keyCase hskipkey hkey hcolon]
          have hndrest : HeadNotDigit (serMembers g ind ps
              ++ (closeWs g ind ++ (rbrace :: rest))) := by
            have := @hnd_serMembers g ind ps rbrace (by decide) rest
            simpa [List.append_assoc] using this
          have hvalue : parseValue f2 ((if g.isEmpty then [] else [' '])
              ++ serJson g (ind ++ g) vv
              ++ (serMembers g ind ps ++ (closeWs g ind ++ (rbrace :: rest))))
              = some (vv, serMembers g ind ps ++ (closeWs g ind ++ (rbrace :: rest))) := by
            refine (ih f2 (by omega)).1 vv g (ind ++ g) _ _ hwfsplit.2.1 hg
              (AllWs_append hind hg) (AllWs_colonTail g) hndrest ?_
            rw [hlen] at hfuel
            have hct : (if g.isEmpty then ([] : List Char) else [' ']).length ≤ 1 := by
              split <;> simp
            have hcl : (colonWs g).length ≤ 2 := by
              rw [colonWs_eq]
              split <;> simp
            simp only [List.length_append, List.length_cons]
            omega
          have hvalue' : parseValue f2 ((if g.isEmpty then [] else [' '])
              ++ (serJson g (ind ++ g) vv
              ++ (serMembers g ind ps ++ (closeWs g ind ++ (rbrace :: rest)))))
              = some (vv, serMembers g ind ps ++ (closeWs g ind ++ (rbrace :: rest))) := by
            rw [← List.append_assoc]
            exact hvalue
          simp only [hvalue']
          have hitems : parseObjItems f2 (serMembers g ind ps
              ++ (closeWs g ind ++ (rbrace :: rest))) = some (ps, rest) := by
            have := (ih f2 (by omega)).2.2 ps g ind rest hwfsplit.2.2 hg hind (by
              rw [hlen] at hfuel
              have hcl : (colonWs g).length ≤ 2 := by
                rw [colonWs_eq]
                split <;> simp
              simp only [List.length_append, List.length_cons]
              omega)
            simpa [List.append_assoc] using this
          rw [hitems]
          have hmk : String.mk k.data = k := rfl
          simp [hmk, objFromPairs_eq hwfsplit.1]
    · -- RTA
      intro vs g ind rest hwf hg hind hfuel
      obtain ⟨f, rfl⟩ : ∃ k, fuel = k + 1 := ⟨fuel - 1, by omega⟩
      cases vs with
      | nil =>
        have hskip : skipWs (serItems g ind [] ++ closeWs g ind ++ rbrack :: rest)
            = rbrack :: rest := by
          simp only [serItems, List.nil_append]
          rw [skipWs_append_ws (AllWs_closeWs hind)]
          exact skipWs_cons_not (by decide) _
        exact parseArrItems_closeCase hskip
      | cons v vs =>
        have hwfv : Json.wfB v = true ∧ Json.wfListB vs = true := by
          have : Json.wfListB (v :: vs) = (Json.wfB v && Json.wfListB vs) := by
            simp [Json.wfListB]
          rw [this] at hwf
          exact ⟨(Bool.and_eq_true_iff.mp hwf).1, (Bool.and_eq_true_iff.mp hwf).2⟩
        have hassoc : (serItems g ind (v :: vs) ++ closeWs g ind ++ rbrack :: rest)
            = ',' :: (itemWs g ind ++ (serJson g (ind ++ g) v
              ++ (serItems g ind vs ++ (closeWs g ind ++ (rbrack :: rest))))) := by
          simp [serItems, List.append_assoc]
        have hskip : skipWs (serItems g ind (v :: vs) ++ closeWs g ind ++ rbrack :: rest)
            = ',' :: (itemWs g ind ++ (serJson g (ind ++ g) v
              ++ (serItems g ind vs ++ (closeWs g ind ++ (rbrack :: rest))))) := by
          rw [hassoc]
          exact skipWs_cons_not (by decide) _
        rw [parseArrItems_commaCase hskip]
        have hlen : (serItems g ind (v :: vs) ++ closeWs g ind ++ rbrack :: rest).length
            = 1 + ((itemWs g ind).length + ((serJson g (ind ++ g) v).length
              + ((serItems g ind vs).length + ((closeWs g ind).length
              + (1 + rest.length))))) := by
          rw [hassoc]
          simp [List.length_append]
          omega
        have hvpos : 0 < (serJson g (ind ++ g) v).length :=
          List.length_pos.mpr (serJson_ne_nil _ _ _)
        have hndrest : HeadNotDigit (serItems g ind vs
            ++ (closeWs g ind ++ (rbrack :: rest))) := by
          have := @hnd_serItems g ind vs rbrack (by decide) rest
          simpa [List.append_assoc] using this
        have hvalue : parseValue f (itemWs g ind ++ serJson g (ind ++ g) v
            ++ (serItems g ind vs ++ (closeWs g ind ++ (rbrack :: rest))))
            = some (v, serItems g ind vs ++ (closeWs g ind ++ (rbrack :: rest))) := by
          refine (ih f (by omega)).1 v g (ind ++ g) _ _ hwfv.1 hg
            (AllWs_append hind hg) (AllWs_itemWs hg hind) hndrest ?_
          rw [hlen] at hfuel
          simp only [List.length_append, List.length_cons]
          omega
        have hvalue' : parseValue f (itemWs g ind ++ (serJson g (ind ++ g) v
            ++ (serItems g ind vs ++ (closeWs g ind ++ (rbrack :: rest)))))
            = some (v, serItems g ind vs ++ (closeWs g ind ++ (rbrack :: rest))) := by
          rw [← List.append_assoc]
          exact hvalue
        simp only [hvalue']
        have hitems : parseArrItems f (serItems g ind vs
            ++ (closeWs g ind ++ (rbrack :: rest))) = some (vs, rest) := by
          have := (ih f (by omega)).2.1 vs g ind rest hwfv.2 hg hind (by
            rw [hlen] at hfuel
            simp only [List.length_append, List.length_cons]
            omega)
          simpa [List.append_assoc] using this
        rw [hitems]
        rfl
    · -- RTO
      intro ps g ind rest hwf hg hind hfuel
      obtain ⟨f, rfl⟩ : ∃ k, fuel = k + 1 := ⟨fuel - 1, by omega⟩
      cases ps with
      | nil =>
        have hskip : skipWs (serMembers g ind [] ++ closeWs g ind ++ rbrace :: rest)
            = rbrace :: rest := by
          simp only [serMembers, List.nil_append]
          rw [skipWs_append_ws (AllWs_closeWs hind)]
          exact skipWs_cons_not (by decide) _
        exact parseObjItems_closeCase hskip
      | cons p ps =>
        obtain ⟨k, vv⟩ := p
        have hwfv : Json.wfB vv = true ∧ Json.wfFieldsB ps = true := by
          have : Json.wfFieldsB ((k, vv) :: ps) = (Json.wfB vv && Json.wfFieldsB ps) := by
            simp [Json.wfFieldsB]
          rw [this] at hwf
          exact ⟨(Bool.and_eq_true_iff.mp hwf).1, (Bool.and_eq_true_iff.mp hwf).2⟩
        have hassoc : (serMembers g ind ((k, vv) :: ps) ++ closeWs g ind ++ rbrace :: rest)
            = ',' :: (itemWs g ind ++ (qchar :: (escapeList k.data
              ++ (qchar :: (colonWs g ++ (serJson g (ind ++ g) vv
              ++ (serMembers g ind ps ++ (closeWs g ind ++ (rbrace :: rest))))))))) := by
          simp [serMembers, serMember, quoteChars, List.append_assoc]
        have hskip : skipWs (serMembers g ind ((k, vv) :: ps) ++ closeWs g ind
            ++ rbrace :: rest)
            = ',' :: (itemWs g ind ++ (qchar :: (escapeList k.data
              ++ (qchar :: (colonWs g ++ (serJson g (ind ++ g) vv
              ++ (serMembers g ind ps ++ (closeWs g ind ++ (rbrace :: rest))))))))) := by
          rw [hassoc]
          exact skipWs_cons_not (by decide) _
        have hskipkey : skipWs (itemWs g ind ++ (qchar :: (escapeList k.data
            ++ (qchar :: (colonWs g ++ (serJson g (ind ++ g) vv
            ++ (serMembers g ind ps ++ (closeWs g ind ++ (rbrace :: rest)))))))))
            = qchar :: (escapeList k.data ++ (qchar :: (colonWs g
              ++ (serJson g (ind ++ g) vv ++ (serMembers g ind ps
              ++ (closeWs g ind ++ (rbrace :: rest))))))) := by
          rw [skipWs_append_ws (AllWs_itemWs hg hind)]
          exact skipWs_cons_not (by decide) _
        have hkey : parseStrBody (escapeList k.data ++ (qchar :: (colonWs g
            ++ (serJson g (ind ++ g) vv ++ (serMembers g ind ps
            ++ (closeWs g ind ++ (rbrace :: rest)))))))
            = some (k.data, colonWs g ++ (serJson g (ind ++ g) vv
              ++ (serMembers g ind ps ++ (closeWs g ind ++ (rbrace :: rest))))) :=
          parseStrBody_escape _ _
        have hcolon : skipWs (colonWs g ++ (serJson g (ind ++ g) vv
            ++ (serMembers g ind ps ++ (closeWs g ind ++ (rbrace :: rest)))))
            = ':' :: ((if g.isEmpty then [] else [' ']) ++ (serJson g (ind ++ g) vv
              ++ (serMembers g ind ps ++ (closeWs g ind ++ (rbrace :: rest))))) := by
          rw [colonWs_eq]
          simp only [List.cons_append]
          exact skipWs_cons_not (by decide) _
        rw [parseObjItems_commaCase hskip hskipkey hkey hcolon]
        have hlen : (serMembers g ind ((k, vv) :: ps) ++ closeWs g ind
            ++ rbrace :: rest).length
            = 1 + ((itemWs g ind).length + (1 + ((escapeList k.data).length
              + (1 + ((colonWs g).length + ((serJson g (ind ++ g) vv).length
              + ((serMembers g ind ps).length + ((closeWs g ind).length
              + (1 + rest.length))))))))) := by
          rw [hassoc]
          simp [List.length_append]
          omega
        have hvpos : 0 < (serJson g (ind ++ g) vv).length :=
          List.length_pos.mpr (serJson_ne_nil _ _ _)
        have hndrest : HeadNotDigit (serMembers g ind ps
            ++ (closeWs g ind ++ (rbrace :: rest))) := by
          have := @hnd_serMembers g ind ps rbrace (by decide) rest
          simpa [List.append_assoc] using this
        have hvalue : parseValue f ((if g.isEmpty then [] else [' '])
            ++ serJson g (ind ++ g) vv
            ++ (serMembers g ind ps ++ (closeWs g ind ++ (rbrace :: rest))))
            = some (vv, serMembers g ind ps ++ (closeWs g ind ++ (rbrace :: rest))) := by
          refine (ih f (by omega)).1 vv g (ind ++ g) _ _ hwfv.1 hg
            (AllWs_append hind hg) (AllWs_colonTail g) hndrest ?_
          rw [hlen] at hfuel
          have hct : (if g.isEmpty then ([] : List Char) else [' ']).length ≤ 1 := by
            split <;> simp
          have hcl : (colonWs g).length ≤ 2 := by
            rw [colonWs_eq]
            split <;> simp
          simp only [List.length_append, List.length_cons]
          omega
        have hvalue' : parseValue f ((if g.isEmpty then [] else [' '])
            ++ (serJson g (ind ++ g) vv
            ++ (serMembers g ind ps ++ (closeWs g ind ++ (rbrace :: rest)))))
            = some (vv, serMembers g ind ps ++ (closeWs g ind ++ (rbrace :: rest))) := by
          rw [← List.append_assoc]
          exact hvalue
        simp only [hvalue']
        have hitems : parseObjItems f (serMembers g ind ps
            ++ (closeWs g ind ++ (rbrace :: rest))) = some (ps, rest) := by
          have := (ih f (by omega)).2.2 ps g ind rest hwfv.2 hg hind (by
            rw [hlen] at hfuel
            have hcl : (colonWs g).length ≤ 2 := by
              rw [colonWs_eq]
              split <;> simp
            simp only [List.length_append, List.length_cons]
            omega)
          simpa [List.append_assoc] using this
        rw [hitems]
        have hmk : String.mk k.data = k := rfl
        simp [hmk]

theorem HeadNotDigit_nil : HeadNotDigit [] := by
  intro c cs h
  cases h

theorem AllWs_two_spaces : AllWs [' ', ' '] := by
  intro c hc
  rcases List.mem_cons.mp hc with rfl | hc'
  · decide
  · rcases List.mem_cons.mp hc' with rfl | hc''
    · decide
    · cases hc''

theorem parseJson_ser {g : List Char} (hg : AllWs g) {v : Json}
    (hwf : Json.wfB v = true) :
    parseJson (String.mk (serJson g [] v)) = some v := by
  have hdata : (String.mk (serJson g [] v)).data = serJson g [] v := rfl
  have hrun := (parseSerAll (2 * (serJson g [] v).length + 3)).1 v g [] [] []
    hwf hg AllWs_nil AllWs_nil HeadNotDigit_nil
    (by simp)
  simp only [List.nil_append, List.append_nil] at hrun
  unfold parseJson
  rw [hdata, hrun]
  rfl

theorem parseJson_stringifyCompact {v : Json} (hwf : Json.wfB v = true) :
    parseJson (stringifyCompact v) = some v :=
  parseJson_ser AllWs_nil hwf

theorem parseJson_stringifyPretty {v : Json} (hwf : Json.wfB v = true) :
    parseJson (stringifyPretty v) = some v :=
  parseJson_ser AllWs_two_spaces hwf

/-- Map from script name to remote file id, as scraped from the directory
listing (a `NaN` id scrapes to `0`, which is equally falsy in the source). -/
abbrev FileMap := List (String × Int)

/-- One script's configuration record: a JSON object as a key-value list. -/
abbrev ConfigRec := List (String × Json)

/-- Remote responses, at the level of what the source scrapes out of the
returned notepad HTML: the config directory id found in the root listing,
a bare success, a directory listing's file links, a new file's form id, or
a file view's textarea content. -/
inductive Resp where
  | rootListing (configDirId : Option Int)
  | okResp
  | dirListing (files : List (String × Int))
  | newFileResp (fileId : Int)
  | fileView (content : String)

/-- Remote requests issued through the `#ajax` helper, tagged with their
payloads: these form the observable trace of a run. -/
inductive Ev where
  | rootListing
  | newDir (name : String)
  | dirListing (dir : Int)
  | newFile (dir : Int) (name : String)
  | saveFile (file : Int) (name : String) (content : String)
  | fileView (file : Int)

/-- Remote requests that write on the server (`newdir`, `newfile`, `save`). -/
def Ev.isRemoteWrite : Ev → Bool
  | .newDir _ => true
  | .newFile _ _ => true
  | .saveFile _ _ _ => true
  | _ => false

/-- Instance fields of one `PersistentConfig` object. -/
structure Inst where
  scriptName : String
  data : ConfigRec
  ready : Bool

/-- The world state: the user id (`$.USERID`), the browser's localStorage,
the scripted list of pending remote responses, the trace of issued
requests (most recent first), the two static promise cells, the pending
un-awaited README-creation job, and the instance fields. -/
structure St where
  userId : String
  store : List (String × String)
  responses : List (Except String Resp)
  trace : List Ev
  dirCell : Option (Except String Int)
  fileIdsCell : Option (Except String FileMap)
  readmePending : Bool
  inst : Inst

/-- State-passing computations with string-reason failures; the state is
kept on failure, as a JS try/catch observes it. -/
def M (α : Type) : Type := St → Except String α × St

/-- Return a value. -/
def mpure {α : Type} (a : α) : M α := fun st => (Except.ok a, st)

/-- Sequence two computations; a failure short-circuits. -/
def mbind {α β : Type} (m : M α) (f : α → M β) : M β := fun st =>
  match m st with
  | (Except.ok a, st1) => f a st1
  | (Except.error e, st1) => (Except.error e, st1)

/-- Reject with a string reason (also models the synchronous `throw`). -/
def mthrow {α : Type} (e : String) : M α := fun st => (Except.error e, st)

/-- The model of a JS `try`/`catch` block. -/
def mtry {α : Type} (m : M α) (h : String → M α) : M α := fun st =>
  match m st with
  | (Except.ok a, st1) => (Except.ok a, st1)
  | (Except.error e, st1) => h e st1

/-- One `#ajax` call: the request is recorded in the trace and the next
scripted response is consumed; an exhausted script rejects. -/
def ajaxCall (ev : Ev) : M Resp := fun st =>
  match st.responses with
  | [] => (Except.error "no scripted remote response",
      {st with trace := ev :: st.trace})
  | r :: rest => (r, {st with responses := rest, trace := ev :: st.trace})

/-- The reason the host site reports for a deleted notepad directory. -/
def dirNotFoundMsg : String := "NotepadDirectory not found"

/-- The reason the host site reports for a deleted notepad file. -/
def fileNotFoundMsg : String := "NotepadFile not found"

/-- The message of the error thrown by the public API before readiness. -/
def notReadyMsg : String := "Config is not ready yet"

/-- The reserved remote directory name. -/
def configDirectoryName : String := ".userscript-config"

/-- The reserved placeholder file name. -/
def readmeName : String := ".README"

/-- The placeholder file's contents. -/
def readmeText : String :=
  "This folder is used to store per-script configuration settings.\n\n"
    ++ "DO NOT manually edit these files, unless you know what you"
    ++ String.mk [Char.ofNat 39] ++ "re doing."

/-- Key of the cached directory id (`$.USERID + ".userscript-config-directory-id"`). -/
def dirIdKey (st : St) : String := st.userId ++ ".userscript-config-directory-id"

/-- Key of the cached file-id map. -/
def fileIdsKey (st : St) : String := st.userId ++ ".userscript-config-file-ids"

/-- Key of the cached config record of the instance's script. -/
def configKey (st : St) : String :=
  st.userId ++ ".userscript-config-" ++ st.inst.scriptName

/-- Digit-run value of a character list. -/
def natOfDigits (ds : List Char) : Nat :=
  ds.foldl (fun a c => a * 10 + (c.toNat - 48)) 0

/-- Model of the JS `Number(string)` coercion restricted to optionally signed
integer numerals; anything else coerces to `0`, which the source only ever
tests for truthiness exactly as it tests `NaN`. -/
def jsNumber (s : String) : Int :=
  match s.data with
  | '-' :: ds => if ds ≠ [] ∧ ds.all Char.isDigit then -((natOfDigits ds : Int)) else 0
  | ds => if ds ≠ [] ∧ ds.all Char.isDigit then ((natOfDigits ds : Int)) else 0

/-- Scrape of the root listing: the config directory link's id, with a
missing link (or non-numeric attribute) scraping to the falsy `0`. -/
def scrapeRootDir : Resp → Int
  | .rootListing o => o.getD 0
  | _ => 0

/-- Scrape of a directory listing: build the name-to-id object by assignment
in listing order, as the `each` loop does. -/
def scrapeFiles : Resp → FileMap
  | .dirListing fs => fs.foldl (fun m p => setKey m p.1 p.2) []
  | _ => []

/-- Scrape of the new-file editor: the form's file id, `0` when missing. -/
def scrapeNewFileId : Resp → Int
  | .newFileResp i => i
  | _ => 0

/-- Scrape of a file view: the textarea content, empty when missing. -/
def scrapeContent : Resp → String
  | .fileView c => c
  | _ => ""

/-- Test for a JSON number, the model of `typeof v === "number"`. -/
def Json.isNum : Json → Bool
  | .num _ => true
  | _ => false

/-- Numeric value of a JSON number (`0` elsewhere; used only under `isNum`). -/
def Json.asNum : Json → Int
  | .num n => n
  | _ => 0

/-- Cached serialisation of a file-id map, `JSON.stringify(fileIds)`. -/
def stringifyFileIds (fileIds : FileMap) : String :=
  String.mk (serJson [] [] (Json.obj (fileIds.map (fun p => (p.1, Json.num p.2)))))

/-- Cached serialisation of a config record, `JSON.stringify(data)`. -/
def stringifyRec (r : ConfigRec) : String :=
  String.mk (serJson [] [] (Json.obj r))

/-- Remote serialisation of a config record, `JSON.stringify(data, null, 2)`. -/
def stringifyRecPretty (r : ConfigRec) : String :=
  String.mk (serJson [' ', ' '] [] (Json.obj r))

namespace PersistentConfig

/-- Model of `#getDirectoryIdFromLocalStorage`. -/
def getDirectoryIdFromLocalStorage : M (Option Int) := fun st =>
  (Except.ok (match lookupKey st.store (dirIdKey st) with
    | some s => if s = "" then none else some (jsNumber s)
    | none => none), st)

/-- Model of `#setDirectoryIdInLocalStorage`. -/
def setDirectoryIdInLocalStorage (directoryId : Option Int) : M Unit := fun st =>
  (Except.ok (), {st with store :=
    match directoryId with
    | none => delKey st.store (dirIdKey st)
    | some d => setKey st.store (dirIdKey st) (String.mk (intChars d))})

/-- Model of `#getDirectoryIdFromServer`. -/
def getDirectoryIdFromServer : M (Option Int) :=
  mbind (ajaxCall Ev.rootListing) (fun resp =>
  if scrapeRootDir resp = 0 then mpure none
  else mbind (setDirectoryIdInLocalStorage (some (scrapeRootDir resp))) (fun _ =>
       mpure (some (scrapeRootDir resp))))

/-- Model of `#createConfigDirectoryOnServer`. -/
def createConfigDirectoryOnServer : M (Option Int) :=
  mbind (ajaxCall (Ev.newDir configDirectoryName)) (fun _ =>
  getDirectoryIdFromServer)

/-- Model of `#getDirectoryId`: the fallback chain with JS truthiness at each
link, rejecting only past a falsy creation result. -/
def getDirectoryId : M Int :=
  mbind getDirectoryIdFromLocalStorage (fun a =>
  if a.getD 0 = 0 then
    mbind getDirectoryIdFromServer (fun b =>
    if b.getD 0 = 0 then
      mbind createConfigDirectoryOnServer (fun c =>
      if c.getD 0 = 0 then mthrow "Failed to create config directory"
      else mpure (c.getD 0))
    else mpure (b.getD 0))
  else mpure (a.getD 0))

/-- Await of the static `#directoryId` promise: replay a settled result, or
run the resolution now and settle the cell. -/
def awaitDirectoryId : M Int := fun st =>
  match st.dirCell with
  | some r => (r, st)
  | none =>
    match getDirectoryId st with
    | (r, st1) => (r, {st1 with dirCell := some r})

/-- Model of the reassignment `#directoryId = #getDirectoryId()`: the old
settled promise is dropped and resolution will rerun on the next await. -/
def resetDirectoryIdPromise : M Unit := fun st =>
  (Except.ok (), {st with dirCell := none})

/-- Model of the reassignment `#fileIds = #getFileIds()`. -/
def resetFileIdsPromise : M Unit := fun st =>
  (Except.ok (), {st with fileIdsCell := none})

/-- Await of the already-settled `#fileIds` promise, used where the source
awaits it at a point where it must have settled (inside `#createNewFile`
and the recovery paths). -/
def readFileIdsPromise : M FileMap := fun st =>
  match st.fileIdsCell with
  | some r => (r, st)
  | none => (Except.error "unsettled fileIds promise", st)

/-- Mutation of the shared object held by the settled `#fileIds` promise. -/
def setFileIdsCellOk (m : FileMap) : M Unit := fun st =>
  (Except.ok (), {st with fileIdsCell := some (Except.ok m)})

/-- Model of `#getFileIdsFromLocalStorage`: tolerant read of the cached map. -/
def getFileIdsFromLocalStorage : M (Option FileMap) := fun st =>
  (Except.ok (match lookupKey st.store (fileIdsKey st) with
    | none => none
    | some s =>
      if s = "" then none
      else if ¬(s.data.head? = some lbrace) then none
      else match parseJson s with
        | some (Json.obj fs) =>
          if fs.all (fun p => p.2.isNum) then some (fs.map (fun p => (p.1, p.2.asNum)))
          else none
        | _ => none), st)

/-- Model of `#setFileIdsInLocalStorage`: store `JSON.stringify(fileIds)`. -/
def setFileIdsInLocalStorage (fileIds : FileMap) : M Unit := fun st =>
  (Except.ok (), {st with store := setKey st.store (fileIdsKey st) (stringifyFileIds fileIds)})

/-- Set the pending flag of the un-awaited README creation chain. -/
def flagReadme : M Unit := fun st => (Except.ok (), {st with readmePending := true})

/-- Model of `#getFileIdsFromServer`: list the config directory, build the
name-to-id map, kick off README creation when the placeholder is missing
(modelled as a pending job, since the source does not await it), and cache
the map. -/
def getFileIdsFromServer : M FileMap :=
  mbind awaitDirectoryId (fun directoryId =>
  mbind (ajaxCall (Ev.dirListing directoryId)) (fun resp =>
  mbind (if (lookupKey (scrapeFiles resp) readmeName).getD 0 = 0 then flagReadme
         else mpure ()) (fun _ =>
  mbind (setFileIdsInLocalStorage (scrapeFiles resp)) (fun _ =>
  mpure (scrapeFiles resp)))))

/-- The try-block of `#getFileIds`: local cache first, else remote. -/
def fileIdsAttempt : M FileMap :=
  mbind getFileIdsFromLocalStorage (fun a =>
    match a with
    | some m => mpure m
    | none => getFileIdsFromServer)

/-- Model of `#getFileIds`: local cache first, else remote; on a
directory-not-found rejection clear the directory cache, restart directory
resolution, and retry the remote fetch exactly once with no handler. -/
def getFileIds : M FileMap :=
  mtry fileIdsAttempt
    (fun e =>
      if e = dirNotFoundMsg then
        mbind (setDirectoryIdInLocalStorage none) (fun _ =>
        mbind resetDirectoryIdPromise (fun _ =>
        getFileIdsFromServer))
      else mthrow e)

/-- Model of `#saveFile`. -/
def saveFile (fileId : Int) (fileName : String) (content : String) : M Resp :=
  ajaxCall (Ev.saveFile fileId fileName content)

/-- Model of `#createNewFile`: create the file remotely, then record its id
in the shared file-id object and the local cache. -/
def createNewFile (fileName : String) : M Int :=
  mbind awaitDirectoryId (fun directoryId =>
  mbind (ajaxCall (Ev.newFile directoryId fileName)) (fun resp =>
  mbind readFileIdsPromise (fun fileIds =>
  mbind (setFileIdsCellOk (setKey fileIds fileName (scrapeNewFileId resp))) (fun _ =>
  mbind (setFileIdsInLocalStorage (setKey fileIds fileName (scrapeNewFileId resp))) (fun _ =>
  mpure (scrapeNewFileId resp))))))

/-- The un-awaited README chain `#createNewFile(".README").then(saveFile …)`,
run right after the `#fileIds` promise settles; its rejection is unhandled
and therefore discarded. -/
def runReadmeJob : M Unit := fun st =>
  (mtry
    (mbind (createNewFile readmeName) (fun fileId =>
      mbind (saveFile fileId readmeName readmeText) (fun _ => mpure ())))
    (fun _ => mpure ())) {st with readmePending := false}

/-- Settle the `#fileIds` promise cell with the resolution result, then run
the README job if one was flagged during the resolution. -/
def settleFileIds (r : Except String FileMap) : M FileMap := fun st1 =>
  if st1.readmePending then
    match runReadmeJob {st1 with fileIdsCell := some r} with
    | (_, st3) => (r, st3)
  else (r, {st1 with fileIdsCell := some r})

/-- Await of the static `#fileIds` promise; on first await the resolution
runs now, the cell settles, and a flagged README job runs afterwards. -/
def awaitFileIds : M FileMap := fun st =>
  match st.fileIdsCell with
  | some r => (r, st)
  | none =>
    match getFileIds st with
    | (r, st1) => settleFileIds r st1

/-- Read of the instance's script name. -/
def getScriptName : M String := fun st => (Except.ok st.inst.scriptName, st)

/-- Model of `#getFileId`: look the script up in the shared file-id object,
creating its file on demand; the (possibly falsy) current entry is returned. -/
def getFileId : M Int :=
  mbind getScriptName (fun name =>
  mbind awaitFileIds (fun fileIds =>
  if (lookupKey fileIds name).getD 0 = 0 then
    mbind (createNewFile name) (fun createdFileId =>
    mbind readFileIdsPromise (fun shared =>
    mbind (setFileIdsCellOk (setKey shared name createdFileId)) (fun _ =>
    mbind (setFileIdsInLocalStorage (setKey shared name createdFileId)) (fun _ =>
    mpure ((lookupKey (setKey shared name createdFileId) name).getD 0)))))
  else mpure ((lookupKey fileIds name).getD 0)))

/-- Model of `#loadConfigDataFromLocalStorage`: tolerant read of the cached
record. -/
def loadConfigDataFromLocalStorage : M (Option ConfigRec) := fun st =>
  (Except.ok (match lookupKey st.store (configKey st) with
    | none => none
    | some s =>
      if s = "" then none
      else if ¬(s.data.head? = some lbrace) then none
      else match parseJson s with
        | some (Json.obj fs) => some fs
        | _ => none), st)

/-- Model of `#setConfigDataInLocalStorage`: remove on a falsy argument,
else store `JSON.stringify(data)`. -/
def setConfigDataInLocalStorage (data : Option ConfigRec) : M Unit := fun st =>
  (Except.ok (), {st with store :=
    match data with
    | none => delKey st.store (configKey st)
    | some r => setKey st.store (configKey st) (stringifyRec r)})

/-- Model of `#loadConfigDataFromServer`: fetch the file view and tolerantly
parse its content, treating anything malformed as the empty record. -/
def loadConfigDataFromServer : M ConfigRec :=
  mbind getFileId (fun fileId =>
  mbind (ajaxCall (Ev.fileView fileId)) (fun resp =>
  if scrapeContent resp = "" then mpure []
  else if ¬((scrapeContent resp).data.head? = some lbrace) then mpure []
  else match parseJson (scrapeContent resp) with
    | some (Json.obj fs) => mpure fs
    | _ => mpure []))

/-- The try-block of `#loadConfigData`: local cache, else remote. -/
def loadConfigAttempt : M ConfigRec :=
  mbind loadConfigDataFromLocalStorage (fun a =>
  match a with
  | some r => mpure r
  | none => loadConfigDataFromServer)

/-- Model of `#loadConfigData` with its two recovery paths: on
file-not-found delete the script's id and refetch once; on
directory-not-found wipe both caches, restart both resolutions, and refetch
once; any other reason is rethrown unchanged. -/
def loadConfigData : M ConfigRec :=
  mtry loadConfigAttempt
    (fun e =>
      if e = fileNotFoundMsg then
        mbind readFileIdsPromise (fun fileIds =>
        mbind getScriptName (fun name =>
        mbind (setFileIdsCellOk (delKey fileIds name)) (fun _ =>
        mbind (setFileIdsInLocalStorage (delKey fileIds name)) (fun _ =>
        loadConfigDataFromServer))))
      else if e = dirNotFoundMsg then
        mbind (setDirectoryIdInLocalStorage none) (fun _ =>
        mbind (setFileIdsInLocalStorage []) (fun _ =>
        mbind resetDirectoryIdPromise (fun _ =>
        mbind resetFileIdsPromise (fun _ =>
        loadConfigDataFromServer))))
      else mthrow e)

/-- Model of `#persistConfigData`: resolve the file id, save the two-space
stringified record remotely, recover from directory-not-found by wiping the
caches (with no retry, and every other save failure swallowed), and always
write the record to the local cache afterwards. -/
def persistConfigData (data : ConfigRec) : M Unit :=
  mbind getFileId (fun fileId =>
  mbind getScriptName (fun name =>
  mbind (mtry
      (mbind (saveFile fileId name (stringifyRecPretty data))
        (fun _ => mpure ()))
      (fun e =>
        if e = dirNotFoundMsg then
          mbind (setDirectoryIdInLocalStorage none) (fun _ =>
          mbind (setFileIdsInLocalStorage []) (fun _ =>
          mbind resetDirectoryIdPromise (fun _ =>
          resetFileIdsPromise)))
        else mpure ())) (fun _ =>
  setConfigDataInLocalStorage (some data))))

/-- The readiness guard shared by the four public methods. -/
def ensureReady : M Unit := fun st =>
  if st.inst.ready then (Except.ok (), st) else (Except.error notReadyMsg, st)

/-- Nullish-coalescing of a property read against the default value. -/
def jsNullish (v : Option Json) (d : Option Json) : Option Json :=
  match v with
  | some x => if x.isNull then d else some x
  | none => d

/-- Model of the public `get(key, defaultValue)`. -/
def get (key : String) (defaultValue : Option Json) : M (Option Json) := fun st =>
  if st.inst.ready then
    (Except.ok (jsNullish (lookupKey st.inst.data key) defaultValue), st)
  else (Except.error notReadyMsg, st)

/-- Model of the public `set(key, value)`: update the record in memory and
write it through to the local cache. -/
def set (key : String) (value : Json) : M Unit := fun st =>
  if st.inst.ready then
    setConfigDataInLocalStorage (some (setKey st.inst.data key value))
      {st with inst := {st.inst with data := setKey st.inst.data key value}}
  else (Except.error notReadyMsg, st)

/-- Read of the instance's record. -/
def getInstData : M ConfigRec := fun st => (Except.ok st.inst.data, st)

/-- Overwrite of the instance's record. -/
def setInstData (d : ConfigRec) : M Unit := fun st =>
  (Except.ok (), {st with inst := {st.inst with data := d}})

/-- Model of the public `sync()`: drop the local cache, reload (now
necessarily from the remote), and cache what was loaded. -/
def sync : M Unit :=
  mbind ensureReady (fun _ =>
  mbind (setConfigDataInLocalStorage none) (fun _ =>
  mbind loadConfigData (fun d =>
  mbind (setInstData d) (fun _ =>
  setConfigDataInLocalStorage (some d)))))

/-- Model of the public `persist()`. -/
def persist : M Unit :=
  mbind ensureReady (fun _ =>
  mbind getInstData (fun d => persistConfigData d))

/-- Model of the constructor: install the instance fields, run the initial
load, and mark the instance ready exactly when the load resolved. -/
def mkConfig (scriptName : String) : M Unit := fun st =>
  match loadConfigData {st with inst := ⟨scriptName, [], false⟩} with
  | (Except.ok d, st1) => (Except.ok (), {st1 with inst := ⟨scriptName, d, true⟩})
  | (Except.error e, st1) => (Except.error e, st1)

end PersistentConfig

theorem lookupKey_setKey {α : Type} (m : List (String × α)) (k : String) (v : α) :
    lookupKey (setKey m k v) k = some v := by
  induction m with
  | nil => simp [setKey, lookupKey]
  | cons p t ih =>
    obtain ⟨k', v'⟩ := p
    by_cases hk : k' = k
    · simp [setKey, hk, lookupKey]
    · simp [setKey, hk, lookupKey, ih]

theorem lookupKey_delKey {α : Type} (m : List (String × α)) (k : String) :
    lookupKey (delKey m k) k = none := by
  induction m with
  | nil => rfl
  | cons p t ih =>
    obtain ⟨k', v'⟩ := p
    by_cases hk : k' = k
    · simp [delKey, hk, ih]
    · simp [delKey, hk, lookupKey, ih]

theorem serJson_obj_head (g ind : List Char) (r : List (String × Json)) :
    ∃ cs, serJson g ind (Json.obj r) = lbrace :: cs := by
  cases r with
  | nil => exact ⟨[rbrace], by simp [serJson]⟩
  | cons p ps =>
    exact ⟨itemWs g ind ++ serMember g ind p ++ serMembers g ind ps
      ++ closeWs g ind ++ [rbrace], by simp [serJson]⟩

theorem stringifyRec_head (r : ConfigRec) :
    (stringifyRec r).data.head? = some lbrace := by
  obtain ⟨cs, h⟩ := serJson_obj_head [] [] r
  simp [stringifyRec, h]

theorem stringifyRec_ne_empty (r : ConfigRec) : ¬(stringifyRec r = "") := by
  obtain ⟨cs, h⟩ := serJson_obj_head [] [] r
  simp [stringifyRec, h]
  intro hcontra
  have : (String.mk (lbrace :: cs)).data = ("" : String).data := by rw [hcontra]
  simp at this

/-- C9: for every `PersistentConfig` instance whose ready promise has not yet
resolved, each of the four public operations `get`, `set`, `sync` and
`persist` fails with the error message "Config is not ready yet", and the
whole world state — in-memory record, local cache, remote trace — is left
unchanged. -/
theorem C9_public_api_not_ready
    (u : String) (sto : List (String × String)) (res : List (Except String Resp))
    (tr : List Ev) (dc : Option (Except String Int)) (fc : Option (Except String FileMap))
    (rp : Bool) (name : String) (data : ConfigRec)
    (k : String) (d : Option Json) (v : Json) :
    PersistentConfig.get k d ⟨u, sto, res, tr, dc, fc, rp, ⟨name, data, false⟩⟩
      = (Except.error notReadyMsg, ⟨u, sto, res, tr, dc, fc, rp, ⟨name, data, false⟩⟩)
    ∧ PersistentConfig.set k v ⟨u, sto, res, tr, dc, fc, rp, ⟨name, data, false⟩⟩
      = (Except.error notReadyMsg, ⟨u, sto, res, tr, dc, fc, rp, ⟨name, data, false⟩⟩)
    ∧ PersistentConfig.sync ⟨u, sto, res, tr, dc, fc, rp, ⟨name, data, false⟩⟩
      = (Except.error notReadyMsg, ⟨u, sto, res, tr, dc, fc, rp, ⟨name, data, false⟩⟩)
    ∧ PersistentConfig.persist ⟨u, sto, res, tr, dc, fc, rp, ⟨name, data, false⟩⟩
      = (Except.error notReadyMsg, ⟨u, sto, res, tr, dc, fc, rp, ⟨name, data, false⟩⟩) :=
  ⟨rfl, rfl, rfl, rfl⟩

/-- C1 (counterexample): the claim quantifies over every value `v`, but
setting the JSON value `null` and reading the key back yields the default
(`undefined`, modelled as `none`) because of the nullish coalescing in
`get`, not the stored `null`. -/
theorem C1_null_value_counterexample :
    (PersistentConfig.get "a" none
      ((PersistentConfig.set "a" Json.null
        ⟨"", [], [], [], none, none, false, ⟨"s", [], true⟩⟩).2)).1
      = Except.ok none
    ∧ ¬((Except.ok (none : Option Json) : Except String (Option Json))
        = Except.ok (some Json.null)) :=
  ⟨rfl, by simp⟩

/-- C1 (amended): on a ready instance, for every non-null value `v`,
`set(k, v)` succeeds, only updates the in-memory record and the local
cache (the response script and the request trace are untouched), and a
following `get(k)` returns exactly `v` while leaving the whole state
unchanged — in particular no remote request is made by either call. -/
theorem C1_set_then_get
    (u : String) (sto : List (String × String)) (res : List (Except String Resp))
    (tr : List Ev) (dc : Option (Except String Int)) (fc : Option (Except String FileMap))
    (rp : Bool) (name : String) (data : ConfigRec)
    (k : String) (v : Json) (d : Option Json) (hv : v.isNull = false) :
    PersistentConfig.set k v ⟨u, sto, res, tr, dc, fc, rp, ⟨name, data, true⟩⟩
      = (Except.ok (), ⟨u,
          setKey sto (u ++ ".userscript-config-" ++ name) (stringifyRec (setKey data k v)),
          res, tr, dc, fc, rp, ⟨name, setKey data k v, true⟩⟩)
    ∧ PersistentConfig.get k d ⟨u,
          setKey sto (u ++ ".userscript-config-" ++ name) (stringifyRec (setKey data k v)),
          res, tr, dc, fc, rp, ⟨name, setKey data k v, true⟩⟩
      = (Except.ok (some v), ⟨u,
          setKey sto (u ++ ".userscript-config-" ++ name) (stringifyRec (setKey data k v)),
          res, tr, dc, fc, rp, ⟨name, setKey data k v, true⟩⟩) := by
  constructor
  · rfl
  · simp only [PersistentConfig.get, PersistentConfig.jsNullish, lookupKey_setKey, hv]
    rfl

/-- Witness for the amended C1 at a concrete non-null value. -/
theorem C1_set_then_get_witness :
    (Json.num 3).isNull = false
    ∧ (PersistentConfig.set "a" (Json.num 3)
          ⟨"", [], [], [], none, none, false, ⟨"s", [], true⟩⟩
        = (Except.ok (), ⟨"",
            setKey [] ("" ++ ".userscript-config-" ++ "s")
              (stringifyRec (setKey [] "a" (Json.num 3))),
            [], [], none, none, false, ⟨"s", setKey [] "a" (Json.num 3), true⟩⟩)
      ∧ PersistentConfig.get "a" none ⟨"",
            setKey [] ("" ++ ".userscript-config-" ++ "s")
              (stringifyRec (setKey [] "a" (Json.num 3))),
            [], [], none, none, false, ⟨"s", setKey [] "a" (Json.num 3), true⟩⟩
        = (Except.ok (some (Json.num 3)), ⟨"",
            setKey [] ("" ++ ".userscript-config-" ++ "s")
              (stringifyRec (setKey [] "a" (Json.num 3))),
            [], [], none, none, false, ⟨"s", setKey [] "a" (Json.num 3), true⟩⟩)) :=
  ⟨rfl, C1_set_then_get "" [] [] [] none none false "s" [] "a" (Json.num 3) none rfl⟩

theorem loadConfigData_propagates {st stt : St} {e : String}
    (h : PersistentConfig.loadConfigAttempt st = (Except.error e, stt))
    (h1 : ¬(e = fileNotFoundMsg)) (h2 : ¬(e = dirNotFoundMsg)) :
    PersistentConfig.loadConfigData st = (Except.error e, stt) := by
  unfold PersistentConfig.loadConfigData mtry
  rw [h]
  simp [h1, h2, mthrow]

theorem getFileIds_propagates {st stt : St} {e : String}
    (h : PersistentConfig.fileIdsAttempt st = (Except.error e, stt))
    (h2 : ¬(e = dirNotFoundMsg)) :
    PersistentConfig.getFileIds st = (Except.error e, stt) := by
  unfold PersistentConfig.getFileIds mtry
  rw [h]
  simp [h2, mthrow]

theorem persist_resolved_run
    (u : String) (sto : List (String × String)) (res : List (Except String Resp))
    (tr : List Ev) (dc : Option (Except String Int)) (rp : Bool)
    (name : String) (data : ConfigRec) (mm : FileMap) (fid : Int)
    (h1 : lookupKey mm name = some fid) (h2 : ¬(fid = 0)) :
    (PersistentConfig.persist
        ⟨u, sto, res, tr, dc, some (Except.ok mm), rp, ⟨name, data, true⟩⟩).1
      = Except.ok ()
    ∧ ((PersistentConfig.persist
        ⟨u, sto, res, tr, dc, some (Except.ok mm), rp, ⟨name, data, true⟩⟩).2).trace
      = Ev.saveFile fid name (stringifyRecPretty data) :: tr
    ∧ lookupKey ((PersistentConfig.persist
        ⟨u, sto, res, tr, dc, some (Except.ok mm), rp, ⟨name, data, true⟩⟩).2).store
        (u ++ ".userscript-config-" ++ name)
      = some (stringifyRec data)
    ∧ ((PersistentConfig.persist
        ⟨u, sto, res, tr, dc, some (Except.ok mm), rp, ⟨name, data, true⟩⟩).2).inst
      = ⟨name, data, true⟩ := by
  cases res with
  | nil =>
    simp +decide [PersistentConfig.persist, PersistentConfig.ensureReady,
      PersistentConfig.getInstData, PersistentConfig.persistConfigData,
      PersistentConfig.getFileId, PersistentConfig.getScriptName,
      PersistentConfig.awaitFileIds, PersistentConfig.saveFile, ajaxCall,
      PersistentConfig.setConfigDataInLocalStorage, configKey, dirNotFoundMsg,
      mbind, mpure, mtry, mthrow, h1, h2, lookupKey_setKey]
  | cons r rest =>
    cases r with
    | ok resp =>
      simp [PersistentConfig.persist, PersistentConfig.ensureReady,
        PersistentConfig.getInstData, PersistentConfig.persistConfigData,
        PersistentConfig.getFileId, PersistentConfig.getScriptName,
        PersistentConfig.awaitFileIds, PersistentConfig.saveFile, ajaxCall,
        PersistentConfig.setConfigDataInLocalStorage, configKey,
        mbind, mpure, mtry, mthrow, h1, h2, lookupKey_setKey]
    | error e =>
      by_cases he : e = dirNotFoundMsg
      · simp [PersistentConfig.persist, PersistentConfig.ensureReady,
          PersistentConfig.getInstData, PersistentConfig.persistConfigData,
          PersistentConfig.getFileId, PersistentConfig.getScriptName,
          PersistentConfig.awaitFileIds, PersistentConfig.saveFile, ajaxCall,
          PersistentConfig.setConfigDataInLocalStorage,
          PersistentConfig.setDirectoryIdInLocalStorage,
          PersistentConfig.setFileIdsInLocalStorage,
          PersistentConfig.resetDirectoryIdPromise,
          PersistentConfig.resetFileIdsPromise,
          configKey, dirIdKey, fileIdsKey,
          mbind, mpure, mtry, mthrow, h1, h2, he, lookupKey_setKey]
      · simp [PersistentConfig.persist, PersistentConfig.ensureReady,
          PersistentConfig.getInstData, PersistentConfig.persistConfigData,
          PersistentConfig.getFileId, PersistentConfig.getScriptName,
          PersistentConfig.awaitFileIds, PersistentConfig.saveFile, ajaxCall,
          PersistentConfig.setConfigDataInLocalStorage, configKey,
          mbind, mpure, mtry, mthrow, h1, h2, he, lookupKey_setKey]

theorem persist_dirNotFound_run
    (u : String) (sto : List (String × String)) (rest : List (Except String Resp))
    (tr : List Ev) (dc : Option (Except String Int)) (rp : Bool)
    (name : String) (data : ConfigRec) (mm : FileMap) (fid : Int)
    (h1 : lookupKey mm name = some fid) (h2 : ¬(fid = 0)) :
    PersistentConfig.persist
        ⟨u, sto, Except.error dirNotFoundMsg :: rest, tr, dc,
          some (Except.ok mm), rp, ⟨name, data, true⟩⟩
      = (Except.ok (), ⟨u,
          setKey (setKey (delKey sto (u ++ ".userscript-config-directory-id"))
              (u ++ ".userscript-config-file-ids") (stringifyFileIds []))
            (u ++ ".userscript-config-" ++ name) (stringifyRec data),
          rest, Ev.saveFile fid name (stringifyRecPretty data) :: tr,
          none, none, rp, ⟨name, data, true⟩⟩) := by
  simp [PersistentConfig.persist, PersistentConfig.ensureReady,
    PersistentConfig.getInstData, PersistentConfig.persistConfigData,
    PersistentConfig.getFileId, PersistentConfig.getScriptName,
    PersistentConfig.awaitFileIds, PersistentConfig.saveFile, ajaxCall,
    PersistentConfig.setConfigDataInLocalStorage,
    PersistentConfig.setDirectoryIdInLocalStorage,
    PersistentConfig.setFileIdsInLocalStorage,
    PersistentConfig.resetDirectoryIdPromise,
    PersistentConfig.resetFileIdsPromise,
    configKey, dirIdKey, fileIdsKey,
    mbind, mpure, mtry, mthrow, h1, h2]

/-- C2 (counterexample): a `persist()` whose remote save rejects with an
unrecognised reason ("network error", which is neither of the two special
reasons) still resolves successfully — the save rejection is swallowed by
the empty catch, not propagated unchanged to the caller. -/
theorem C2_persist_swallow_counterexample :
    (PersistentConfig.persist ⟨"", [], [Except.error "network error"], [], none,
        some (Except.ok [("s", 7)]), false, ⟨"s", [], true⟩⟩).1 = Except.ok ()
    ∧ ((PersistentConfig.persist ⟨"", [], [Except.error "network error"], [], none,
        some (Except.ok [("s", 7)]), false, ⟨"s", [], true⟩⟩).2).responses = []
    ∧ ¬("network error" = dirNotFoundMsg) ∧ ¬("network error" = fileNotFoundMsg) :=
  ⟨rfl, rfl, by decide, by decide⟩

/-- C2 (amended): during config loading the recognised reasons are the only
ones handled — `#loadConfigData` rethrows any other rejection unchanged, and
`#getFileIds` rethrows anything but directory-not-found unchanged — but
`persist()` swallows every rejection of the remote save (whatever its
reason) and resolves successfully. -/
theorem C2_error_propagation :
    (∀ (st stt : St) (e : String),
        PersistentConfig.loadConfigAttempt st = (Except.error e, stt) →
        ¬(e = fileNotFoundMsg) → ¬(e = dirNotFoundMsg) →
        PersistentConfig.loadConfigData st = (Except.error e, stt))
    ∧ (∀ (st stt : St) (e : String),
        PersistentConfig.fileIdsAttempt st = (Except.error e, stt) →
        ¬(e = dirNotFoundMsg) →
        PersistentConfig.getFileIds st = (Except.error e, stt))
    ∧ (∀ (u : String) (sto : List (String × String)) (rest : List (Except String Resp))
        (tr : List Ev) (dc : Option (Except String Int)) (rp : Bool)
        (name : String) (data : ConfigRec) (mm : FileMap) (fid : Int) (e : String),
        lookupKey mm name = some fid → ¬(fid = 0) →
        (PersistentConfig.persist ⟨u, sto, Except.error e :: rest, tr, dc,
            some (Except.ok mm), rp, ⟨name, data, true⟩⟩).1 = Except.ok ()) :=
  ⟨fun _ _ _ h h1 h2 => loadConfigData_propagates h h1 h2,
   fun _ _ _ h h2 => getFileIds_propagates h h2,
   fun u sto rest tr dc rp name data mm fid _ h1 h2 =>
     (persist_resolved_run u sto (Except.error _ :: rest) tr dc rp name data mm fid h1 h2).1⟩

/-- Witness for the amended C2: a concrete load whose attempt rejects with
an unrecognised reason propagates that same reason, and a concrete persist
whose save rejects resolves successfully. -/
theorem C2_error_propagation_witness :
    ¬("boom" = fileNotFoundMsg) ∧ ¬("boom" = dirNotFoundMsg)
    ∧ PersistentConfig.loadConfigData
        ⟨"", [], [], [], none, some (Except.error "boom"), false, ⟨"s", [], true⟩⟩
      = (Except.error "boom",
        ⟨"", [], [], [], none, some (Except.error "boom"), false, ⟨"s", [], true⟩⟩)
    ∧ (PersistentConfig.persist ⟨"", [], [Except.error "boom"], [], none,
        some (Except.ok [("s", 7)]), false, ⟨"s", [], true⟩⟩).1 = Except.ok () :=
  ⟨by decide, by decide,
   C2_error_propagation.1 _ _ "boom" rfl (by decide) (by decide),
   C2_error_propagation.2.2 "" [] [] [] none false "s" [] [("s", 7)] 7 "boom"
     rfl (by decide)⟩

/-- C3: when `persist()` hits the directory-not-found rejection from the
remote save, it removes the cached directory id and replaces the cached
file-index with the empty one (both localStorage entries and both static
promise cells, forcing re-resolution), issues no second save request (the
trace gains exactly the one save event), resolves successfully, and — like
every persist whose file id resolved — writes the full in-memory record to
the local cache whatever the save outcome was. -/
theorem C3_persist_dir_not_found_recovery
    (u : String) (sto : List (String × String)) (tr : List Ev)
    (dc : Option (Except String Int)) (rp : Bool)
    (name : String) (data : ConfigRec) (mm : FileMap) (fid : Int)
    (h1 : lookupKey mm name = some fid) (h2 : ¬(fid = 0)) :
    (∀ res : List (Except String Resp),
      ((PersistentConfig.persist
          ⟨u, sto, res, tr, dc, some (Except.ok mm), rp, ⟨name, data, true⟩⟩).2).trace
        = Ev.saveFile fid name (stringifyRecPretty data) :: tr
      ∧ lookupKey ((PersistentConfig.persist
          ⟨u, sto, res, tr, dc, some (Except.ok mm), rp, ⟨name, data, true⟩⟩).2).store
          (u ++ ".userscript-config-" ++ name)
        = some (stringifyRec data))
    ∧ (∀ rest : List (Except String Resp),
      PersistentConfig.persist
          ⟨u, sto, Except.error dirNotFoundMsg :: rest, tr, dc,
            some (Except.ok mm), rp, ⟨name, data, true⟩⟩
        = (Except.ok (), ⟨u,
            setKey (setKey (delKey sto (u ++ ".userscript-config-directory-id"))
                (u ++ ".userscript-config-file-ids") (stringifyFileIds []))
              (u ++ ".userscript-config-" ++ name) (stringifyRec data),
            rest, Ev.saveFile fid name (stringifyRecPretty data) :: tr,
            none, none, rp, ⟨name, data, true⟩⟩)) :=
  ⟨fun res =>
    ⟨(persist_resolved_run u sto res tr dc rp name data mm fid h1 h2).2.1,
     (persist_resolved_run u sto res tr dc rp name data mm fid h1 h2).2.2.1⟩,
   fun rest => persist_dirNotFound_run u sto rest tr dc rp name data mm fid h1 h2⟩

/-- Witness for C3 at a concrete single-entry file index and a concrete
directory-not-found save rejection. -/
theorem C3_persist_dir_not_found_recovery_witness :
    lookupKey [("s", (7 : Int))] "s" = some 7 ∧ ¬((7 : Int) = 0)
    ∧ ((PersistentConfig.persist ⟨"", [], [Except.error dirNotFoundMsg], [], none,
          some (Except.ok [("s", 7)]), false, ⟨"s", [], true⟩⟩).2).trace
        = [Ev.saveFile 7 "s" (stringifyRecPretty [])]
    ∧ lookupKey ((PersistentConfig.persist ⟨"", [], [Except.error dirNotFoundMsg], [], none,
          some (Except.ok [("s", 7)]), false, ⟨"s", [], true⟩⟩).2).store
          ("" ++ ".userscript-config-" ++ "s")
        = some (stringifyRec []) :=
  ⟨rfl, by decide,
   ((C3_persist_dir_not_found_recovery "" [] [] none false "s" [] [("s", 7)] 7
      rfl (by decide)).1 [Except.error dirNotFoundMsg]).1,
   ((C3_persist_dir_not_found_recovery "" [] [] none false "s" [] [("s", 7)] 7
      rfl (by decide)).1 [Except.error dirNotFoundMsg]).2⟩

/-- C8: for every persist whose file id resolved, the string sent as the
remote file content is exactly `JSON.stringify(data, null, 2)` of the
in-memory record at call time, and `JSON.parse` maps that string back to
an object equal to the record. -/
theorem C8_persist_content_roundtrip
    (u : String) (sto : List (String × String)) (tr : List Ev)
    (dc : Option (Except String Int)) (rp : Bool)
    (name : String) (data : ConfigRec) (mm : FileMap) (fid : Int)
    (h1 : lookupKey mm name = some fid) (h2 : ¬(fid = 0))
    (hwf : Json.wfB (Json.obj data) = true) :
    (∀ res : List (Except String Resp),
      ((PersistentConfig.persist
          ⟨u, sto, res, tr, dc, some (Except.ok mm), rp, ⟨name, data, true⟩⟩).2).trace
        = Ev.saveFile fid name (stringifyRecPretty data) :: tr)
    ∧ parseJson (stringifyRecPretty data) = some (Json.obj data) :=
  ⟨fun res => (persist_resolved_run u sto res tr dc rp name data mm fid h1 h2).2.1,
   parseJson_stringifyPretty hwf⟩

/-- Witness for C8 at a concrete two-key record. -/
theorem C8_persist_content_roundtrip_witness :
    lookupKey [("s", (7 : Int))] "s" = some 7 ∧ ¬((7 : Int) = 0)
    ∧ Json.wfB (Json.obj [("a", Json.num 1), ("b", Json.str "x")]) = true
    ∧ ((PersistentConfig.persist ⟨"", [], [Except.ok Resp.okResp], [], none,
          some (Except.ok [("s", 7)]), false,
          ⟨"s", [("a", Json.num 1), ("b", Json.str "x")], true⟩⟩).2).trace
        = [Ev.saveFile 7 "s" (stringifyRecPretty [("a", Json.num 1), ("b", Json.str "x")])]
    ∧ parseJson (stringifyRecPretty [("a", Json.num 1), ("b", Json.str "x")])
        = some (Json.obj [("a", Json.num 1), ("b", Json.str "x")]) :=
  ⟨rfl, by decide, by simp [Json.wfB, Json.wfFieldsB, nodupKeysB, hasKeyB],
   (C8_persist_content_roundtrip "" [] [] none false "s"
      [("a", Json.num 1), ("b", Json.str "x")] [("s", 7)] 7 rfl (by decide)
      (by simp [Json.wfB, Json.wfFieldsB, nodupKeysB, hasKeyB])).1 [Except.ok Resp.okResp],
   (C8_persist_content_roundtrip "" [] [] none false "s"
      [("a", Json.num 1), ("b", Json.str "x")] [("s", 7)] 7 rfl (by decide)
      (by simp [Json.wfB, Json.wfFieldsB, nodupKeysB, hasKeyB])).2⟩

theorem sync_remote_wins_run
    (u : String) (sto : List (String × String)) (tr : List Ev)
    (dc : Option (Except String Int)) (rp : Bool)
    (name : String) (data : ConfigRec) (mm : FileMap) (fid : Int) (m : ConfigRec)
    (h1 : lookupKey mm name = some fid) (h2 : ¬(fid = 0))
    (hwf : Json.wfB (Json.obj m) = true) :
    PersistentConfig.sync
        ⟨u, sto, [Except.ok (Resp.fileView (stringifyRec m))], tr, dc,
          some (Except.ok mm), rp, ⟨name, data, true⟩⟩
      = (Except.ok (), ⟨u,
          setKey (delKey sto (u ++ ".userscript-config-" ++ name))
            (u ++ ".userscript-config-" ++ name) (stringifyRec m),
          [], Ev.fileView fid :: tr, dc, some (Except.ok mm), rp,
          ⟨name, m, true⟩⟩) := by
  have hhead := stringifyRec_head m
  have hne := stringifyRec_ne_empty m
  have hparse : parseJson (stringifyRec m) = some (Json.obj m) :=
    parseJson_stringifyCompact hwf
  simp [PersistentConfig.sync, PersistentConfig.ensureReady,
    PersistentConfig.setConfigDataInLocalStorage, PersistentConfig.loadConfigData,
    PersistentConfig.loadConfigAttempt, PersistentConfig.loadConfigDataFromLocalStorage,
    PersistentConfig.loadConfigDataFromServer, PersistentConfig.getFileId,
    PersistentConfig.getScriptName, PersistentConfig.awaitFileIds,
    PersistentConfig.setInstData, ajaxCall, scrapeContent,
    configKey, mbind, mpure, mtry, mthrow,
    h1, h2, hhead, hne, hparse, lookupKey_delKey]

/-- C5 (counterexample): the claim quantifies over every key of the remote
file, but when the remote file stores `null` for a key, a successful
`sync()` followed by `get` on that key returns the default (`undefined`,
modelled as `none`) rather than the stored `null`. -/
theorem C5_null_remote_counterexample :
    (PersistentConfig.sync ⟨"", [], [Except.ok (Resp.fileView
        (stringifyRec [("a", Json.null)]))], [], none,
        some (Except.ok [("s", 7)]), false, ⟨"s", [], true⟩⟩).1 = Except.ok ()
    ∧ parseJson (stringifyRec [("a", Json.null)]) = some (Json.obj [("a", Json.null)])
    ∧ (PersistentConfig.get "a" none
        ((PersistentConfig.sync ⟨"", [], [Except.ok (Resp.fileView
          (stringifyRec [("a", Json.null)]))], [], none,
          some (Except.ok [("s", 7)]), false, ⟨"s", [], true⟩⟩).2)).1
      = Except.ok none
    ∧ ¬((Except.ok (none : Option Json) : Except String (Option Json))
        = Except.ok (some Json.null)) := by
  have h := sync_remote_wins_run "" [] [] none false "s" [] [("s", 7)] 7
    [("a", Json.null)] rfl (by decide)
    (by simp [Json.wfB, Json.wfFieldsB, nodupKeysB, hasKeyB])
  refine ⟨by rw [h], parseJson_stringifyCompact
    (by simp [Json.wfB, Json.wfFieldsB, nodupKeysB, hasKeyB]), ?_, by simp⟩
  rw [h]
  rfl

/-- C5 (amended): a successful `sync()` discards the local cache, refetches
the record from the remote file, and overwrites both the in-memory record
and the local cache with the remote content with no merging — any prior
local store content and any prior unsynced in-memory record disappear; a
following `get(k)` returns the remote value for `k` whenever that value is
not null (a remote null is reported as the default). -/
theorem C5_sync_remote_wins
    (u : String) (sto : List (String × String)) (tr : List Ev)
    (dc : Option (Except String Int)) (rp : Bool)
    (name : String) (data : ConfigRec) (mm : FileMap) (fid : Int) (m : ConfigRec)
    (h1 : lookupKey mm name = some fid) (h2 : ¬(fid = 0))
    (hwf : Json.wfB (Json.obj m) = true) :
    PersistentConfig.sync
        ⟨u, sto, [Except.ok (Resp.fileView (stringifyRec m))], tr, dc,
          some (Except.ok mm), rp, ⟨name, data, true⟩⟩
      = (Except.ok (), ⟨u,
          setKey (delKey sto (u ++ ".userscript-config-" ++ name))
            (u ++ ".userscript-config-" ++ name) (stringifyRec m),
          [], Ev.fileView fid :: tr, dc, some (Except.ok mm), rp,
          ⟨name, m, true⟩⟩)
    ∧ (∀ (k : String) (v : Json) (d : Option Json),
        lookupKey m k = some v → v.isNull = false →
        (PersistentConfig.get k d ⟨u,
            setKey (delKey sto (u ++ ".userscript-config-" ++ name))
              (u ++ ".userscript-config-" ++ name) (stringifyRec m),
            [], Ev.fileView fid :: tr, dc, some (Except.ok mm), rp,
            ⟨name, m, true⟩⟩).1
          = Except.ok (some v)) :=
  ⟨sync_remote_wins_run u sto tr dc rp name data mm fid m h1 h2 hwf,
   fun k v d hk hv => by
     simp [PersistentConfig.get, PersistentConfig.jsNullish, hk, hv]⟩

/-- Witness for the amended C5: a concrete sync against a one-key remote
record, followed by a get of that key. -/
theorem C5_sync_remote_wins_witness :
    lookupKey [("s", (7 : Int))] "s" = some 7 ∧ ¬((7 : Int) = 0)
    ∧ Json.wfB (Json.obj [("a", Json.num 4)]) = true
    ∧ lookupKey [("a", Json.num 4)] "a" = some (Json.num 4)
    ∧ (Json.num 4).isNull = false
    ∧ (PersistentConfig.get "a" none ⟨"",
          setKey (delKey [("junk", "junk")] ("" ++ ".userscript-config-" ++ "s"))
            ("" ++ ".userscript-config-" ++ "s") (stringifyRec [("a", Json.num 4)]),
          [], [Ev.fileView 7], none, some (Except.ok [("s", 7)]), false,
          ⟨"s", [("a", Json.num 4)], true⟩⟩).1
        = Except.ok (some (Json.num 4)) :=
  ⟨rfl, by decide, by simp [Json.wfB, Json.wfFieldsB, nodupKeysB, hasKeyB], rfl, rfl,
   (C5_sync_remote_wins "" [("junk", "junk")] [] none false "s"
      [("z", Json.bool true)] [("s", 7)] 7 [("a", Json.num 4)] rfl (by decide)
      (by simp [Json.wfB, Json.wfFieldsB, nodupKeysB, hasKeyB])).2
     "a" (Json.num 4) none rfl rfl⟩

/-- C6: when the `#fileIds` resolution misses the local cache and the remote
directory listing rejects with "NotepadDirectory not found", the cached
directory id is invalidated (localStorage entry removed, promise cell
reset) and the whole computation continues as exactly one plain rerun of
the remote fetch from that invalidated state — so directory resolution and
the file-index fetch are retried exactly once, and any failure of that
rerun surfaces unchanged because the rerun is outside the handler. -/
theorem C6_fileindex_retry_once
    (u : String) (sto : List (String × String)) (rest : List (Except String Resp))
    (tr : List Ev) (d : Int) (fc : Option (Except String FileMap)) (rp : Bool)
    (name : String) (data : ConfigRec) (rdy : Bool)
    (hloc : lookupKey sto (u ++ ".userscript-config-file-ids") = none) :
    PersistentConfig.getFileIds
        ⟨u, sto, Except.error dirNotFoundMsg :: rest, tr, some (Except.ok d),
          fc, rp, ⟨name, data, rdy⟩⟩
      = PersistentConfig.getFileIdsFromServer
          ⟨u, delKey sto (u ++ ".userscript-config-directory-id"), rest,
            Ev.dirListing d :: tr, none, fc, rp, ⟨name, data, rdy⟩⟩ := by
  have hstep : PersistentConfig.fileIdsAttempt
      ⟨u, sto, Except.error dirNotFoundMsg :: rest, tr, some (Except.ok d),
        fc, rp, ⟨name, data, rdy⟩⟩
      = (Except.error dirNotFoundMsg,
        ⟨u, sto, rest, Ev.dirListing d :: tr, some (Except.ok d),
          fc, rp, ⟨name, data, rdy⟩⟩) := by
    simp [PersistentConfig.fileIdsAttempt, PersistentConfig.getFileIdsFromLocalStorage,
      PersistentConfig.getFileIdsFromServer, PersistentConfig.awaitDirectoryId,
      ajaxCall, fileIdsKey, mbind, mpure, hloc]
  unfold PersistentConfig.getFileIds mtry
  rw [hstep]
  simp [PersistentConfig.setDirectoryIdInLocalStorage,
    PersistentConfig.resetDirectoryIdPromise, dirIdKey, mbind, mpure]

/-- Witness for C6 at a concrete state with a resolved directory id and an
empty local cache. -/
theorem C6_fileindex_retry_once_witness :
    lookupKey ([] : List (String × String)) ("" ++ ".userscript-config-file-ids") = none
    ∧ PersistentConfig.getFileIds
        ⟨"", [], [Except.error dirNotFoundMsg], [], some (Except.ok 5),
          none, false, ⟨"s", [], true⟩⟩
      = PersistentConfig.getFileIdsFromServer
          ⟨"", delKey [] ("" ++ ".userscript-config-directory-id"), [],
            [Ev.dirListing 5], none, none, false, ⟨"s", [], true⟩⟩ :=
  ⟨rfl, C6_fileindex_retry_once "" [] [] [] 5 none false "s" [] true rfl⟩

theorem getDirectoryId_cache_hit
    (u : String) (sto : List (String × String)) (res : List (Except String Resp))
    (tr : List Ev) (dc : Option (Except String Int)) (fc : Option (Except String FileMap))
    (rp : Bool) (ins : Inst) (s : String)
    (hs : lookupKey sto (u ++ ".userscript-config-directory-id") = some s)
    (hs1 : ¬(s = "")) (hs2 : ¬(jsNumber s = 0)) :
    PersistentConfig.getDirectoryId ⟨u, sto, res, tr, dc, fc, rp, ins⟩
      = (Except.ok (jsNumber s), ⟨u, sto, res, tr, dc, fc, rp, ins⟩) := by
  simp [PersistentConfig.getDirectoryId, PersistentConfig.getDirectoryIdFromLocalStorage,
    dirIdKey, mbind, mpure, hs, hs1, hs2]

theorem getDirectoryId_listing_hit
    (u : String) (sto : List (String × String)) (rest : List (Except String Resp))
    (tr : List Ev) (dc : Option (Except String Int)) (fc : Option (Except String FileMap))
    (rp : Bool) (ins : Inst) (did : Int)
    (hloc : lookupKey sto (u ++ ".userscript-config-directory-id") = none)
    (hdid : ¬(did = 0)) :
    PersistentConfig.getDirectoryId
        ⟨u, sto, Except.ok (Resp.rootListing (some did)) :: rest, tr, dc, fc, rp, ins⟩
      = (Except.ok did,
        ⟨u, setKey sto (u ++ ".userscript-config-directory-id") (String.mk (intChars did)),
          rest, Ev.rootListing :: tr, dc, fc, rp, ins⟩) := by
  simp [PersistentConfig.getDirectoryId, PersistentConfig.getDirectoryIdFromLocalStorage,
    PersistentConfig.getDirectoryIdFromServer, PersistentConfig.setDirectoryIdInLocalStorage,
    ajaxCall, scrapeRootDir, dirIdKey, mbind, mpure, hloc, hdid]

theorem getDirectoryId_creation_hit
    (u : String) (sto : List (String × String)) (r2 : Resp)
    (rest : List (Except String Resp))
    (tr : List Ev) (dc : Option (Except String Int)) (fc : Option (Except String FileMap))
    (rp : Bool) (ins : Inst) (did : Int)
    (hloc : lookupKey sto (u ++ ".userscript-config-directory-id") = none)
    (hdid : ¬(did = 0)) :
    PersistentConfig.getDirectoryId
        ⟨u, sto, Except.ok (Resp.rootListing none) :: Except.ok r2
            :: Except.ok (Resp.rootListing (some did)) :: rest, tr, dc, fc, rp, ins⟩
      = (Except.ok did,
        ⟨u, setKey sto (u ++ ".userscript-config-directory-id") (String.mk (intChars did)),
          rest, Ev.rootListing :: Ev.newDir configDirectoryName :: Ev.rootListing :: tr,
          dc, fc, rp, ins⟩) := by
  simp [PersistentConfig.getDirectoryId, PersistentConfig.getDirectoryIdFromLocalStorage,
    PersistentConfig.getDirectoryIdFromServer, PersistentConfig.setDirectoryIdInLocalStorage,
    PersistentConfig.createConfigDirectoryOnServer,
    ajaxCall, scrapeRootDir, dirIdKey, mbind, mpure, hloc, hdid]

theorem getDirectoryId_error_sources
    (u : String) (sto : List (String × String))
    (r1 r2 r3 : Except String Resp) (rest : List (Except String Resp))
    (tr : List Ev) (dc : Option (Except String Int)) (fc : Option (Except String FileMap))
    (rp : Bool) (ins : Inst) (e : String)
    (he : (PersistentConfig.getDirectoryId
        ⟨u, sto, r1 :: r2 :: r3 :: rest, tr, dc, fc, rp, ins⟩).1
      = Except.error e) :
    Except.error e ∈ ([r1, r2, r3] : List (Except String Resp))
      ∨ e = "Failed to create config directory" := by
  by_cases hfirst : (match lookupKey sto (u ++ ".userscript-config-directory-id") with
      | some s => if s = "" then (none : Option Int) else some (jsNumber s)
      | none => none).getD 0 = 0
  · -- cache falsy: go to server
    cases r1 with
    | error e1 =>
      simp [PersistentConfig.getDirectoryId,
        PersistentConfig.getDirectoryIdFromLocalStorage,
        PersistentConfig.getDirectoryIdFromServer, ajaxCall, dirIdKey,
        mbind, mpure, mthrow, hfirst] at he
      subst he
      exact Or.inl (by simp)
    | ok resp1 =>
      by_cases hd1 : scrapeRootDir resp1 = 0
      · cases r2 with
        | error e2 =>
          simp [PersistentConfig.getDirectoryId,
            PersistentConfig.getDirectoryIdFromLocalStorage,
            PersistentConfig.getDirectoryIdFromServer,
            PersistentConfig.createConfigDirectoryOnServer, ajaxCall, dirIdKey,
            mbind, mpure, mthrow, hfirst, hd1] at he
          subst he
          exact Or.inl (by simp)
        | ok resp2 =>
          cases r3 with
          | error e3 =>
            simp [PersistentConfig.getDirectoryId,
              PersistentConfig.getDirectoryIdFromLocalStorage,
              PersistentConfig.getDirectoryIdFromServer,
              PersistentConfig.createConfigDirectoryOnServer, ajaxCall, dirIdKey,
              mbind, mpure, mthrow, hfirst, hd1] at he
            subst he
            exact Or.inl (by simp)
          | ok resp3 =>
            by_cases hd3 : scrapeRootDir resp3 = 0
            · simp [PersistentConfig.getDirectoryId,
                PersistentConfig.getDirectoryIdFromLocalStorage,
                PersistentConfig.getDirectoryIdFromServer,
                PersistentConfig.createConfigDirectoryOnServer,
                PersistentConfig.setDirectoryIdInLocalStorage, ajaxCall, dirIdKey,
                mbind, mpure, mthrow, hfirst, hd1, hd3] at he
              exact Or.inr he.symm
            · simp [PersistentConfig.getDirectoryId,
                PersistentConfig.getDirectoryIdFromLocalStorage,
                PersistentConfig.getDirectoryIdFromServer,
                PersistentConfig.createConfigDirectoryOnServer,
                PersistentConfig.setDirectoryIdInLocalStorage, ajaxCall, dirIdKey,
                mbind, mpure, mthrow, hfirst, hd1, hd3] at he
      · simp [PersistentConfig.getDirectoryId,
          PersistentConfig.getDirectoryIdFromLocalStorage,
          PersistentConfig.getDirectoryIdFromServer,
          PersistentConfig.setDirectoryIdInLocalStorage, ajaxCall, dirIdKey,
          mbind, mpure, mthrow, hfirst, hd1] at he
  · -- cache truthy: resolution succeeds from the cache, no error possible
    simp [PersistentConfig.getDirectoryId,
      PersistentConfig.getDirectoryIdFromLocalStorage, dirIdKey,
      mbind, mpure, hfirst] at he

/-- C7 (counterexample): the claim says directory resolution rejects only
when the creation step fails, but with no cached id and a root-listing
request that rejects with "network error", resolution rejects with that
reason although the trace shows the creation request was never issued. -/
theorem C7_reject_without_creation_counterexample :
    (PersistentConfig.getDirectoryId ⟨"", [], [Except.error "network error"],
        [], none, none, false, ⟨"s", [], false⟩⟩).1
      = Except.error "network error"
    ∧ ((PersistentConfig.getDirectoryId ⟨"", [], [Except.error "network error"],
        [], none, none, false, ⟨"s", [], false⟩⟩).2).trace = [Ev.rootListing]
    ∧ ¬("network error" = "Failed to create config directory") :=
  ⟨rfl, rfl, by decide⟩

/-- C7 (amended): directory resolution tries, in order, the locally cached
DirectoryId, then a remote listing lookup, then remote creation followed by
a second lookup (writing the resolved id back to the cache in the remote
cases); it rejects only when one of the remote requests rejects — with that
request's reason — or when, after the creation request, the directory still
cannot be found ("Failed to create config directory"). -/
theorem C7_directory_resolution_order :
    (∀ (u : String) (sto : List (String × String)) (res : List (Except String Resp))
        (tr : List Ev) (dc : Option (Except String Int))
        (fc : Option (Except String FileMap)) (rp : Bool) (ins : Inst) (s : String),
      lookupKey sto (u ++ ".userscript-config-directory-id") = some s →
      ¬(s = "") → ¬(jsNumber s = 0) →
      PersistentConfig.getDirectoryId ⟨u, sto, res, tr, dc, fc, rp, ins⟩
        = (Except.ok (jsNumber s), ⟨u, sto, res, tr, dc, fc, rp, ins⟩))
    ∧ (∀ (u : String) (sto : List (String × String)) (rest : List (Except String Resp))
        (tr : List Ev) (dc : Option (Except String Int))
        (fc : Option (Except String FileMap)) (rp : Bool) (ins : Inst) (did : Int),
      lookupKey sto (u ++ ".userscript-config-directory-id") = none → ¬(did = 0) →
      PersistentConfig.getDirectoryId
          ⟨u, sto, Except.ok (Resp.rootListing (some did)) :: rest, tr, dc, fc, rp, ins⟩
        = (Except.ok did,
          ⟨u, setKey sto (u ++ ".userscript-config-directory-id")
              (String.mk (intChars did)),
            rest, Ev.rootListing :: tr, dc, fc, rp, ins⟩))
    ∧ (∀ (u : String) (sto : List (String × String)) (r2 : Resp)
        (rest : List (Except String Resp)) (tr : List Ev)
        (dc : Option (Except String Int)) (fc : Option (Except String FileMap))
        (rp : Bool) (ins : Inst) (did : Int),
      lookupKey sto (u ++ ".userscript-config-directory-id") = none → ¬(did = 0) →
      PersistentConfig.getDirectoryId
          ⟨u, sto, Except.ok (Resp.rootListing none) :: Except.ok r2
              :: Except.ok (Resp.rootListing (some did)) :: rest, tr, dc, fc, rp, ins⟩
        = (Except.ok did,
          ⟨u, setKey sto (u ++ ".userscript-config-directory-id")
              (String.mk (intChars did)),
            rest, Ev.rootListing :: Ev.newDir configDirectoryName :: Ev.rootListing :: tr,
            dc, fc, rp, ins⟩))
    ∧ (∀ (u : String) (sto : List (String × String)) (r1 r2 r3 : Except String Resp)
        (rest : List (Except String Resp)) (tr : List Ev)
        (dc : Option (Except String Int)) (fc : Option (Except String FileMap))
        (rp : Bool) (ins : Inst) (e : String),
      (PersistentConfig.getDirectoryId
          ⟨u, sto, r1 :: r2 :: r3 :: rest, tr, dc, fc, rp, ins⟩).1 = Except.error e →
      Except.error e ∈ ([r1, r2, r3] : List (Except String Resp))
        ∨ e = "Failed to create config directory") :=
  ⟨fun u sto res tr dc fc rp ins s hs hs1 hs2 =>
    getDirectoryId_cache_hit u sto res tr dc fc rp ins s hs hs1 hs2,
   fun u sto rest tr dc fc rp ins did hloc hdid =>
    getDirectoryId_listing_hit u sto rest tr dc fc rp ins did hloc hdid,
   fun u sto r2 rest tr dc fc rp ins did hloc hdid =>
    getDirectoryId_creation_hit u sto r2 rest tr dc fc rp ins did hloc hdid,
   fun u sto r1 r2 r3 rest tr dc fc rp ins e he =>
    getDirectoryId_error_sources u sto r1 r2 r3 rest tr dc fc rp ins e he⟩

/-- Witness for the amended C7: a concrete cached hit and a concrete
creation-path run. -/
theorem C7_directory_resolution_order_witness :
    lookupKey [("" ++ ".userscript-config-directory-id", "5")]
        ("" ++ ".userscript-config-directory-id") = some "5"
    ∧ ¬("5" = "") ∧ ¬(jsNumber "5" = 0)
    ∧ PersistentConfig.getDirectoryId
        ⟨"", [("" ++ ".userscript-config-directory-id", "5")], [], [], none, none,
          false, ⟨"s", [], false⟩⟩
      = (Except.ok (jsNumber "5"),
        ⟨"", [("" ++ ".userscript-config-directory-id", "5")], [], [], none, none,
          false, ⟨"s", [], false⟩⟩)
    ∧ PersistentConfig.getDirectoryId
        ⟨"", [], [Except.ok (Resp.rootListing none), Except.ok Resp.okResp,
            Except.ok (Resp.rootListing (some 9))], [], none, none,
          false, ⟨"s", [], false⟩⟩
      = (Except.ok 9,
        ⟨"", setKey [] ("" ++ ".userscript-config-directory-id")
            (String.mk (intChars 9)),
          [], [Ev.rootListing, Ev.newDir configDirectoryName, Ev.rootListing],
          none, none, false, ⟨"s", [], false⟩⟩) :=
  ⟨rfl, by decide, by decide,
   C7_directory_resolution_order.1 "" [("" ++ ".userscript-config-directory-id", "5")]
     [] [] none none false ⟨"s", [], false⟩ "5" rfl (by decide) (by decide),
   C7_directory_resolution_order.2.2.1 "" [] Resp.okResp [] [] none none false
     ⟨"s", [], false⟩ 9 rfl (by decide)⟩

theorem fileIds_reader_tolerant
    (u : String) (sto : List (String × String)) (res : List (Except String Resp))
    (tr : List Ev) (dc : Option (Except String Int)) (fc : Option (Except String FileMap))
    (rp : Bool) (ins : Inst) :
    ∃ ro, PersistentConfig.getFileIdsFromLocalStorage ⟨u, sto, res, tr, dc, fc, rp, ins⟩
        = (Except.ok ro, ⟨u, sto, res, tr, dc, fc, rp, ins⟩)
      ∧ ∀ m', ro = some m' →
          ∃ s fs, lookupKey sto (u ++ ".userscript-config-file-ids") = some s
            ∧ parseJson s = some (Json.obj fs)
            ∧ fs.all (fun p => p.2.isNum) = true
            ∧ m' = fs.map (fun p => (p.1, p.2.asNum)) := by
  refine ⟨_, rfl, ?_⟩
  intro m' h
  simp only [fileIdsKey] at h
  cases hs : lookupKey sto (u ++ ".userscript-config-file-ids") with
  | none => simp [hs] at h
  | some s =>
    by_cases hemp : s = ""
    · simp [hs, hemp] at h
    · by_cases hhead : s.data.head? = some lbrace
      · cases hp : parseJson s with
        | none => simp [hs, hemp, hhead, hp] at h
        | some j =>
          cases j with
          | obj fs =>
            by_cases hall : fs.all (fun p => p.2.isNum) = true
            · simp [hs, hemp, hhead, hp, hall] at h
              exact ⟨s, fs, rfl, hp, hall, h.symm⟩
            · simp [hs, hemp, hhead, hp, hall] at h
          | null => simp [hs, hemp, hhead, hp] at h
          | bool b => simp [hs, hemp, hhead, hp] at h
          | num n => simp [hs, hemp, hhead, hp] at h
          | str s2 => simp [hs, hemp, hhead, hp] at h
          | arr vs => simp [hs, hemp, hhead, hp] at h
      · simp [hs, hemp, hhead] at h

theorem config_reader_tolerant
    (u : String) (sto : List (String × String)) (res : List (Except String Resp))
    (tr : List Ev) (dc : Option (Except String Int)) (fc : Option (Except String FileMap))
    (rp : Bool) (name : String) (data : ConfigRec) (rdy : Bool) :
    ∃ ro, PersistentConfig.loadConfigDataFromLocalStorage
          ⟨u, sto, res, tr, dc, fc, rp, ⟨name, data, rdy⟩⟩
        = (Except.ok ro, ⟨u, sto, res, tr, dc, fc, rp, ⟨name, data, rdy⟩⟩)
      ∧ ∀ r', ro = some r' →
          ∃ s, lookupKey sto (u ++ ".userscript-config-" ++ name) = some s
            ∧ s.data.head? = some lbrace
            ∧ parseJson s = some (Json.obj r') := by
  refine ⟨_, rfl, ?_⟩
  intro r' h
  simp only [configKey] at h
  cases hs : lookupKey sto (u ++ ".userscript-config-" ++ name) with
  | none => simp [hs] at h
  | some s =>
    by_cases hemp : s = ""
    · simp [hs, hemp] at h
    · by_cases hhead : s.data.head? = some lbrace
      · cases hp : parseJson s with
        | none => simp [hs, hemp, hhead, hp] at h
        | some j =>
          cases j with
          | obj fs =>
            simp [hs, hemp, hhead, hp] at h
            exact ⟨s, rfl, hhead, by rw [hp, h]⟩
          | null => simp [hs, hemp, hhead, hp] at h
          | bool b => simp [hs, hemp, hhead, hp] at h
          | num n => simp [hs, hemp, hhead, hp] at h
          | str s2 => simp [hs, hemp, hhead, hp] at h
          | arr vs => simp [hs, hemp, hhead, hp] at h
      · simp [hs, hemp, hhead] at h

theorem server_reader_tolerant
    (u : String) (sto : List (String × String)) (rest : List (Except String Resp))
    (tr : List Ev) (dc : Option (Except String Int)) (rp : Bool)
    (name : String) (data : ConfigRec) (rdy : Bool) (mm : FileMap) (fid : Int)
    (c : String)
    (h1 : lookupKey mm name = some fid) (h2 : ¬(fid = 0)) :
    ∃ r, PersistentConfig.loadConfigDataFromServer
          ⟨u, sto, Except.ok (Resp.fileView c) :: rest, tr, dc,
            some (Except.ok mm), rp, ⟨name, data, rdy⟩⟩
        = (Except.ok r,
          ⟨u, sto, rest, Ev.fileView fid :: tr, dc,
            some (Except.ok mm), rp, ⟨name, data, rdy⟩⟩)
      ∧ ((c = "" ∨ ¬(c.data.head? = some lbrace) ∨ parseJson c = none) → r = []) := by
  by_cases hemp : c = ""
  · refine ⟨[], ?_, fun _ => rfl⟩
    simp [PersistentConfig.loadConfigDataFromServer, PersistentConfig.getFileId,
      PersistentConfig.getScriptName, PersistentConfig.awaitFileIds, ajaxCall,
      scrapeContent, mbind, mpure, h1, h2, hemp]
  · by_cases hhead : c.data.head? = some lbrace
    · cases hp : parseJson c with
      | none =>
        refine ⟨[], ?_, fun _ => rfl⟩
        simp [PersistentConfig.loadConfigDataFromServer, PersistentConfig.getFileId,
          PersistentConfig.getScriptName, PersistentConfig.awaitFileIds, ajaxCall,
          scrapeContent, mbind, mpure, h1, h2, hemp, hhead, hp]
      | some j =>
        cases j with
        | obj fs =>
          refine ⟨fs, ?_, ?_⟩
          · simp [PersistentConfig.loadConfigDataFromServer, PersistentConfig.getFileId,
              PersistentConfig.getScriptName, PersistentConfig.awaitFileIds, ajaxCall,
              scrapeContent, mbind, mpure, h1, h2, hemp, hhead, hp]
          · rintro (hc | hc | hc)
            · exact absurd hc hemp
            · exact absurd hhead hc
            · simp [hp] at hc
        | null =>
          refine ⟨[], ?_, fun _ => rfl⟩
          simp [PersistentConfig.loadConfigDataFromServer, PersistentConfig.getFileId,
            PersistentConfig.getScriptName, PersistentConfig.awaitFileIds, ajaxCall,
            scrapeContent, mbind, mpure, h1, h2, hemp, hhead, hp]
        | bool b =>
          refine ⟨[], ?_, fun _ => rfl⟩
          simp [PersistentConfig.loadConfigDataFromServer, PersistentConfig.getFileId,
            PersistentConfig.getScriptName, PersistentConfig.awaitFileIds, ajaxCall,
            scrapeContent, mbind, mpure, h1, h2, hemp, hhead, hp]
        | num n =>
          refine ⟨[], ?_, fun _ => rfl⟩
          simp [PersistentConfig.loadConfigDataFromServer, PersistentConfig.getFileId,
            PersistentConfig.getScriptName, PersistentConfig.awaitFileIds, ajaxCall,
            scrapeContent, mbind, mpure, h1, h2, hemp, hhead, hp]
        | str s2 =>
          refine ⟨[], ?_, fun _ => rfl⟩
          simp [PersistentConfig.loadConfigDataFromServer, PersistentConfig.getFileId,
            PersistentConfig.getScriptName, PersistentConfig.awaitFileIds, ajaxCall,
            scrapeContent, mbind, mpure, h1, h2, hemp, hhead, hp]
        | arr vs =>
          refine ⟨[], ?_, fun _ => rfl⟩
          simp [PersistentConfig.loadConfigDataFromServer, PersistentConfig.getFileId,
            PersistentConfig.getScriptName, PersistentConfig.awaitFileIds, ajaxCall,
            scrapeContent, mbind, mpure, h1, h2, hemp, hhead, hp]
    · refine ⟨[], ?_, fun _ => rfl⟩
      simp [PersistentConfig.loadConfigDataFromServer, PersistentConfig.getFileId,
        PersistentConfig.getScriptName, PersistentConfig.awaitFileIds, ajaxCall,
        scrapeContent, mbind, mpure, h1, h2, hemp, hhead]

/-- C10: malformed stored data never makes a load fail. The cached
file-index reader never rejects and returns a map only when the stored
string parses to a JSON object all of whose values are numbers; the cached
config reader never rejects and returns a record only when the stored
string starts with a brace and parses to an object; and the remote content
reader resolves with the empty record whenever the fetched content is
empty, does not start with a brace, or fails to parse. -/
theorem C10_malformed_data_tolerated :
    (∀ (u : String) (sto : List (String × String)) (res : List (Except String Resp))
        (tr : List Ev) (dc : Option (Except String Int))
        (fc : Option (Except String FileMap)) (rp : Bool) (ins : Inst),
      ∃ ro, PersistentConfig.getFileIdsFromLocalStorage ⟨u, sto, res, tr, dc, fc, rp, ins⟩
          = (Except.ok ro, ⟨u, sto, res, tr, dc, fc, rp, ins⟩)
        ∧ ∀ m', ro = some m' →
            ∃ s fs, lookupKey sto (u ++ ".userscript-config-file-ids") = some s
              ∧ parseJson s = some (Json.obj fs)
              ∧ fs.all (fun p => p.2.isNum) = true
              ∧ m' = fs.map (fun p => (p.1, p.2.asNum)))
    ∧ (∀ (u : String) (sto : List (String × String)) (res : List (Except String Resp))
        (tr : List Ev) (dc : Option (Except String Int))
        (fc : Option (Except String FileMap)) (rp : Bool)
        (name : String) (data : ConfigRec) (rdy : Bool),
      ∃ ro, PersistentConfig.loadConfigDataFromLocalStorage
            ⟨u, sto, res, tr, dc, fc, rp, ⟨name, data, rdy⟩⟩
          = (Except.ok ro, ⟨u, sto, res, tr, dc, fc, rp, ⟨name, data, rdy⟩⟩)
        ∧ ∀ r', ro = some r' →
            ∃ s, lookupKey sto (u ++ ".userscript-config-" ++ name) = some s
              ∧ s.data.head? = some lbrace
              ∧ parseJson s = some (Json.obj r'))
    ∧ (∀ (u : String) (sto : List (String × String)) (rest : List (Except String Resp))
        (tr : List Ev) (dc : Option (Except String Int)) (rp : Bool)
        (name : String) (data : ConfigRec) (rdy : Bool) (mm : FileMap) (fid : Int)
        (c : String),
      lookupKey mm name = some fid → ¬(fid = 0) →
      ∃ r, PersistentConfig.loadConfigDataFromServer
            ⟨u, sto, Except.ok (Resp.fileView c) :: rest, tr, dc,
              some (Except.ok mm), rp, ⟨name, data, rdy⟩⟩
          = (Except.ok r,
            ⟨u, sto, rest, Ev.fileView fid :: tr, dc,
              some (Except.ok mm), rp, ⟨name, data, rdy⟩⟩)
        ∧ ((c = "" ∨ ¬(c.data.head? = some lbrace) ∨ parseJson c = none) → r = [])) :=
  ⟨fun u sto res tr dc fc rp ins =>
    fileIds_reader_tolerant u sto res tr dc fc rp ins,
   fun u sto res tr dc fc rp name data rdy =>
    config_reader_tolerant u sto res tr dc fc rp name data rdy,
   fun u sto rest tr dc rp name data rdy mm fid c h1 h2 =>
    server_reader_tolerant u sto rest tr dc rp name data rdy mm fid c h1 h2⟩

/-- Witness for C10: a concrete remote content that is not JSON loads as
the empty record. -/
theorem C10_malformed_data_tolerated_witness :
    lookupKey [("s", (7 : Int))] "s" = some 7 ∧ ¬((7 : Int) = 0)
    ∧ (∃ r, PersistentConfig.loadConfigDataFromServer
          ⟨"", [], [Except.ok (Resp.fileView "nope")], [], none,
            some (Except.ok [("s", 7)]), false, ⟨"s", [], true⟩⟩
        = (Except.ok r,
          ⟨"", [], [], [Ev.fileView 7], none,
            some (Except.ok [("s", 7)]), false, ⟨"s", [], true⟩⟩)
      ∧ (("nope" = "" ∨ ¬(("nope" : String).data.head? = some lbrace)
          ∨ parseJson "nope" = none) → r = [])) :=
  ⟨rfl, by decide,
   C10_malformed_data_tolerated.2.2 "" [] [] [] none false "s" [] true
     [("s", 7)] 7 "nope" rfl (by decide)⟩

/-- A computation only appends trace events satisfying `P`. -/
def EmitsOnly (P : Ev → Prop) {α : Type} (m : M α) : Prop :=
  ∀ st, ∃ evs, ((m st).2).trace = evs ++ st.trace ∧ ∀ e ∈ evs, P e

theorem emitsOnly_of_state_eq {P : Ev → Prop} {α : Type} {m : M α}
    (h : ∀ st, ((m st).2).trace = st.trace) : EmitsOnly P m :=
  fun st => ⟨[], by simp [h st], by simp⟩

theorem emitsOnly_mpure {P : Ev → Prop} {α : Type} (a : α) : EmitsOnly P (mpure a) :=
  emitsOnly_of_state_eq (fun _ => rfl)

theorem emitsOnly_mthrow {P : Ev → Prop} {α : Type} (e : String) :
    EmitsOnly P (mthrow (α := α) e) :=
  emitsOnly_of_state_eq (fun _ => rfl)

theorem emitsOnly_mbind {P : Ev → Prop} {α β : Type} {m : M α} {f : α → M β}
    (hm : EmitsOnly P m) (hf : ∀ a, EmitsOnly P (f a)) : EmitsOnly P (mbind m f) := by
  intro st
  obtain ⟨evs1, h1, hp1⟩ := hm st
  unfold mbind
  cases hms : m st with
  | mk r st1 =>
    rw [hms] at h1
    have h1' : st1.trace = evs1 ++ st.trace := h1
    cases r with
    | ok a =>
      obtain ⟨evs2, h2, hp2⟩ := hf a st1
      refine ⟨evs2 ++ evs1, ?_, ?_⟩
      · simp only [h2, h1', List.append_assoc]
      · intro e he
        rcases List.mem_append.mp he with h | h
        · exact hp2 e h
        · exact hp1 e h
    | error e => exact ⟨evs1, h1', hp1⟩

theorem emitsOnly_mtry {P : Ev → Prop} {α : Type} {m : M α} {h : String → M α}
    (hm : EmitsOnly P m) (hh : ∀ e, EmitsOnly P (h e)) : EmitsOnly P (mtry m h) := by
  intro st
  obtain ⟨evs1, h1, hp1⟩ := hm st
  unfold mtry
  cases hms : m st with
  | mk r st1 =>
    rw [hms] at h1
    have h1' : st1.trace = evs1 ++ st.trace := h1
    cases r with
    | ok a => exact ⟨evs1, h1', hp1⟩
    | error e =>
      obtain ⟨evs2, h2, hp2⟩ := hh e st1
      refine ⟨evs2 ++ evs1, ?_, ?_⟩
      · simp only [h2, h1', List.append_assoc]
      · intro e2 he2
        rcases List.mem_append.mp he2 with h | h
        · exact hp2 e2 h
        · exact hp1 e2 h

theorem emitsOnly_ite {P : Ev → Prop} {α : Type} (c : Prop) [Decidable c]
    {m1 m2 : M α} (h1 : EmitsOnly P m1) (h2 : EmitsOnly P m2) :
    EmitsOnly P (if c then m1 else m2) := by
  by_cases hc : c
  · simpa [hc] using h1
  · simpa [hc] using h2

theorem emitsOnly_ajaxCall {P : Ev → Prop} {ev : Ev} (hp : P ev) :
    EmitsOnly P (ajaxCall ev) := by
  intro st
  unfold ajaxCall
  cases st.responses with
  | nil => exact ⟨[ev], rfl, by simpa using hp⟩
  | cons r rest => exact ⟨[ev], rfl, by simpa using hp⟩

/-- Trace events whose only uploads of file content are the README
placeholder: any save event carries the reserved name and text. -/
def ReadmeOnlyWrite (e : Ev) : Prop :=
  ∀ (f : Int) (n c : String), e = Ev.saveFile f n c → n = readmeName ∧ c = readmeText

theorem readmeOnlyWrite_rootListing : ReadmeOnlyWrite Ev.rootListing := by
  intro f n c h
  cases h

theorem readmeOnlyWrite_newDir (name : String) : ReadmeOnlyWrite (Ev.newDir name) := by
  intro f n c h
  cases h

theorem readmeOnlyWrite_dirListing (d : Int) : ReadmeOnlyWrite (Ev.dirListing d) := by
  intro f n c h
  cases h

theorem readmeOnlyWrite_newFile (d : Int) (name : String) :
    ReadmeOnlyWrite (Ev.newFile d name) := by
  intro f n c h
  cases h

theorem readmeOnlyWrite_fileView (fid : Int) : ReadmeOnlyWrite (Ev.fileView fid) := by
  intro f n c h
  cases h

theorem readmeOnlyWrite_saveReadme (fid : Int) :
    ReadmeOnlyWrite (Ev.saveFile fid readmeName readmeText) := by
  intro f n c h
  cases h
  exact ⟨rfl, rfl⟩

theorem ro_stateOnly {α : Type} {m : M α} (h : ∀ st, ((m st).2).trace = st.trace) :
    EmitsOnly ReadmeOnlyWrite m :=
  emitsOnly_of_state_eq h

theorem ro_getDirectoryIdFromServer :
    EmitsOnly ReadmeOnlyWrite PersistentConfig.getDirectoryIdFromServer := by
  unfold PersistentConfig.getDirectoryIdFromServer
  refine emitsOnly_mbind (emitsOnly_ajaxCall readmeOnlyWrite_rootListing) ?_
  intro resp
  refine emitsOnly_ite _ (emitsOnly_mpure _) ?_
  exact emitsOnly_mbind (ro_stateOnly fun st => rfl) (fun _ => emitsOnly_mpure _)

theorem ro_createConfigDirectoryOnServer :
    EmitsOnly ReadmeOnlyWrite PersistentConfig.createConfigDirectoryOnServer := by
  unfold PersistentConfig.createConfigDirectoryOnServer
  exact emitsOnly_mbind (emitsOnly_ajaxCall (readmeOnlyWrite_newDir _))
    (fun _ => ro_getDirectoryIdFromServer)

theorem ro_getDirectoryId :
    EmitsOnly ReadmeOnlyWrite PersistentConfig.getDirectoryId := by
  unfold PersistentConfig.getDirectoryId
  refine emitsOnly_mbind (ro_stateOnly fun st => rfl) ?_
  intro a
  refine emitsOnly_ite _ ?_ (emitsOnly_mpure _)
  refine emitsOnly_mbind ro_getDirectoryIdFromServer ?_
  intro b
  refine emitsOnly_ite _ ?_ (emitsOnly_mpure _)
  refine emitsOnly_mbind ro_createConfigDirectoryOnServer ?_
  intro c
  exact emitsOnly_ite _ (emitsOnly_mthrow _) (emitsOnly_mpure _)

theorem ro_awaitDirectoryId :
    EmitsOnly ReadmeOnlyWrite PersistentConfig.awaitDirectoryId := by
  intro st
  unfold PersistentConfig.awaitDirectoryId
  cases hdc : st.dirCell with
  | some r => exact ⟨[], rfl, by simp⟩
  | none =>
    obtain ⟨evs, h, hp⟩ := ro_getDirectoryId st
    cases hg : PersistentConfig.getDirectoryId st with
    | mk r st1 =>
      rw [hg] at h
      exact ⟨evs, h, hp⟩

theorem ro_getFileIdsFromServer :
    EmitsOnly ReadmeOnlyWrite PersistentConfig.getFileIdsFromServer := by
  unfold PersistentConfig.getFileIdsFromServer
  refine emitsOnly_mbind ro_awaitDirectoryId ?_
  intro d
  refine emitsOnly_mbind (emitsOnly_ajaxCall (readmeOnlyWrite_dirListing d)) ?_
  intro resp
  refine emitsOnly_mbind (emitsOnly_ite _ (ro_stateOnly fun st => rfl)
    (emitsOnly_mpure _)) ?_
  intro _
  exact emitsOnly_mbind (ro_stateOnly fun st => rfl) (fun _ => emitsOnly_mpure _)

theorem ro_fileIdsAttempt :
    EmitsOnly ReadmeOnlyWrite PersistentConfig.fileIdsAttempt := by
  unfold PersistentConfig.fileIdsAttempt
  refine emitsOnly_mbind (ro_stateOnly fun st => rfl) ?_
  intro a
  cases a with
  | none => exact ro_getFileIdsFromServer
  | some m => exact emitsOnly_mpure _

theorem ro_getFileIds :
    EmitsOnly ReadmeOnlyWrite PersistentConfig.getFileIds := by
  unfold PersistentConfig.getFileIds
  refine emitsOnly_mtry ro_fileIdsAttempt ?_
  intro e
  refine emitsOnly_ite _ ?_ (emitsOnly_mthrow _)
  refine emitsOnly_mbind (ro_stateOnly fun st => rfl) ?_
  intro _
  exact emitsOnly_mbind (ro_stateOnly fun st => rfl) (fun _ => ro_getFileIdsFromServer)

theorem ro_readFileIdsPromise :
    EmitsOnly ReadmeOnlyWrite PersistentConfig.readFileIdsPromise := by
  refine ro_stateOnly fun st => ?_
  unfold PersistentConfig.readFileIdsPromise
  cases st.fileIdsCell <;> rfl

theorem ro_createNewFile (fileName : String) :
    EmitsOnly ReadmeOnlyWrite (PersistentConfig.createNewFile fileName) := by
  unfold PersistentConfig.createNewFile
  refine emitsOnly_mbind ro_awaitDirectoryId ?_
  intro d
  refine emitsOnly_mbind (emitsOnly_ajaxCall (readmeOnlyWrite_newFile d fileName)) ?_
  intro resp
  refine emitsOnly_mbind ro_readFileIdsPromise ?_
  intro m
  refine emitsOnly_mbind (ro_stateOnly fun st => rfl) ?_
  intro _
  exact emitsOnly_mbind (ro_stateOnly fun st => rfl) (fun _ => emitsOnly_mpure _)

theorem ro_runReadmeJob :
    EmitsOnly ReadmeOnlyWrite PersistentConfig.runReadmeJob := by
  intro st
  unfold PersistentConfig.runReadmeJob
  have hin : EmitsOnly ReadmeOnlyWrite
      (mtry (mbind (PersistentConfig.createNewFile readmeName) (fun fileId =>
        mbind (PersistentConfig.saveFile fileId readmeName readmeText)
          (fun _ => mpure ())))
        (fun _ => mpure ())) := by
    refine emitsOnly_mtry ?_ (fun _ => emitsOnly_mpure _)
    refine emitsOnly_mbind (ro_createNewFile readmeName) ?_
    intro fid
    exact emitsOnly_mbind (emitsOnly_ajaxCall (readmeOnlyWrite_saveReadme fid))
      (fun _ => emitsOnly_mpure _)
  obtain ⟨evs, h, hp⟩ := hin {st with readmePending := false}
  exact ⟨evs, h, hp⟩

theorem ro_settleFileIds (r : Except String FileMap) :
    EmitsOnly ReadmeOnlyWrite (PersistentConfig.settleFileIds r) := by
  intro st1
  unfold PersistentConfig.settleFileIds
  by_cases hrp : st1.readmePending = true
  · rw [if_pos hrp]
    obtain ⟨evs2, h2, hp2⟩ := ro_runReadmeJob ({st1 with fileIdsCell := some r} : St)
    cases hj : PersistentConfig.runReadmeJob ({st1 with fileIdsCell := some r} : St) with
    | mk r2 st3 =>
      rw [hj] at h2
      have h2' : st3.trace = evs2 ++ st1.trace := h2
      refine ⟨evs2, ?_, hp2⟩
      simp only [hj]
      show st3.trace = evs2 ++ st1.trace
      exact h2'
  · rw [if_neg hrp]
    exact ⟨[], rfl, by simp⟩

theorem ro_awaitFileIds :
    EmitsOnly ReadmeOnlyWrite PersistentConfig.awaitFileIds := by
  intro st
  unfold PersistentConfig.awaitFileIds
  cases hfc : st.fileIdsCell with
  | some r => exact ⟨[], rfl, by simp⟩
  | none =>
    cases hg : PersistentConfig.getFileIds st with
    | mk r st1 =>
      obtain ⟨evs1, h1, hp1⟩ := ro_getFileIds st
      rw [hg] at h1
      have h1' : st1.trace = evs1 ++ st.trace := h1
      obtain ⟨evs2, h2, hp2⟩ := ro_settleFileIds r st1
      refine ⟨evs2 ++ evs1, ?_, ?_⟩
      · show ((PersistentConfig.settleFileIds r st1).2).trace = evs2 ++ evs1 ++ st.trace
        rw [h2, h1', List.append_assoc]
      · intro e he
        rcases List.mem_append.mp he with h | h
        · exact hp2 e h
        · exact hp1 e h

theorem ro_getFileId :
    EmitsOnly ReadmeOnlyWrite PersistentConfig.getFileId := by
  unfold PersistentConfig.getFileId
  refine emitsOnly_mbind (ro_stateOnly fun st => rfl) ?_
  intro name
  refine emitsOnly_mbind ro_awaitFileIds ?_
  intro m
  refine emitsOnly_ite _ ?_ (emitsOnly_mpure _)
  refine emitsOnly_mbind (ro_createNewFile name) ?_
  intro fid
  refine emitsOnly_mbind ro_readFileIdsPromise ?_
  intro m2
  refine emitsOnly_mbind (ro_stateOnly fun st => rfl) ?_
  intro _
  exact emitsOnly_mbind (ro_stateOnly fun st => rfl) (fun _ => emitsOnly_mpure _)

theorem ro_loadConfigDataFromServer :
    EmitsOnly ReadmeOnlyWrite PersistentConfig.loadConfigDataFromServer := by
  unfold PersistentConfig.loadConfigDataFromServer
  refine emitsOnly_mbind ro_getFileId ?_
  intro fid
  refine emitsOnly_mbind (emitsOnly_ajaxCall (readmeOnlyWrite_fileView fid)) ?_
  intro resp
  refine ro_stateOnly fun st => ?_
  by_cases h1 : scrapeContent resp = ""
  · simp [h1, mpure]
  · by_cases h2 : ¬((scrapeContent resp).data.head? = some lbrace)
    · simp [h1, h2, mpure]
    · cases hp : parseJson (scrapeContent resp) with
      | none => simp [h1, h2, hp, mpure]
      | some j => cases j <;> simp [h1, h2, hp, mpure]

theorem ro_loadConfigAttempt :
    EmitsOnly ReadmeOnlyWrite PersistentConfig.loadConfigAttempt := by
  unfold PersistentConfig.loadConfigAttempt
  refine emitsOnly_mbind (ro_stateOnly fun st => rfl) ?_
  intro a
  cases a with
  | none => exact ro_loadConfigDataFromServer
  | some r => exact emitsOnly_mpure _

theorem ro_loadConfigData :
    EmitsOnly ReadmeOnlyWrite PersistentConfig.loadConfigData := by
  unfold PersistentConfig.loadConfigData
  refine emitsOnly_mtry ro_loadConfigAttempt ?_
  intro e
  refine emitsOnly_ite _ ?_ ?_
  · refine emitsOnly_mbind ro_readFileIdsPromise ?_
    intro m
    refine emitsOnly_mbind (ro_stateOnly fun st => rfl) ?_
    intro name
    refine emitsOnly_mbind (ro_stateOnly fun st => rfl) ?_
    intro _
    exact emitsOnly_mbind (ro_stateOnly fun st => rfl)
      (fun _ => ro_loadConfigDataFromServer)
  · refine emitsOnly_ite _ ?_ (emitsOnly_mthrow _)
    refine emitsOnly_mbind (ro_stateOnly fun st => rfl) ?_
    intro _
    refine emitsOnly_mbind (ro_stateOnly fun st => rfl) ?_
    intro _
    refine emitsOnly_mbind (ro_stateOnly fun st => rfl) ?_
    intro _
    exact emitsOnly_mbind (ro_stateOnly fun st => rfl)
      (fun _ => ro_loadConfigDataFromServer)

theorem ro_mkConfig (scriptName : String) :
    EmitsOnly ReadmeOnlyWrite (PersistentConfig.mkConfig scriptName) := by
  intro st
  unfold PersistentConfig.mkConfig
  obtain ⟨evs, h, hp⟩ :=
    ro_loadConfigData ({st with inst := ⟨scriptName, [], false⟩} : St)
  cases hl : PersistentConfig.loadConfigData ({st with inst := ⟨scriptName, [], false⟩} : St) with
  | mk r st1 =>
    rw [hl] at h
    have h' : st1.trace = evs ++ st.trace := h
    cases r with
    | ok d => exact ⟨evs, h', hp⟩
    | error e => exact ⟨evs, h', hp⟩

/-- C4 (counterexample): merely constructing a `PersistentConfig` can write
to the remote server with no `persist()` call anywhere: starting from empty
caches, when the root listing shows no config directory the constructor's
load issues the directory-creation request, a remote write. -/
theorem C4_implicit_write_counterexample :
    ((PersistentConfig.mkConfig "s"
        ⟨"", [], [Except.ok (Resp.rootListing none)], [], none, none, false,
          ⟨"", [], false⟩⟩).2).trace.any Ev.isRemoteWrite = true
    ∧ (⟨"", [], [Except.ok (Resp.rootListing none)], [], none, none, false,
        ⟨"", [], false⟩⟩ : St).trace = [] :=
  ⟨rfl, rfl⟩

/-- C4 (amended): construction, config loading and file-index resolution may
write to the remote server implicitly — creating the config directory, a
config file, or the README placeholder — but they never upload config
record content: every save request they issue carries the reserved README
name and text, so the in-memory record reaches the remote only through an
explicit `persist()`. -/
theorem C4_no_implicit_record_upload (scriptName : String) :
    EmitsOnly ReadmeOnlyWrite (PersistentConfig.mkConfig scriptName)
    ∧ EmitsOnly ReadmeOnlyWrite PersistentConfig.loadConfigData
    ∧ EmitsOnly ReadmeOnlyWrite PersistentConfig.getFileIds :=
  ⟨ro_mkConfig scriptName, ro_loadConfigData, ro_getFileIds⟩

/-- Witness for the amended C4 at a concrete construction run. -/
theorem C4_no_implicit_record_upload_witness :
    ∃ evs, ((PersistentConfig.mkConfig "s"
        ⟨"", [], [Except.ok (Resp.rootListing none)], [], none, none, false,
          ⟨"", [], false⟩⟩).2).trace
      = evs ++ (⟨"", [], [Except.ok (Resp.rootListing none)], [], none, none, false,
          ⟨"", [], false⟩⟩ : St).trace
    ∧ ∀ e ∈ evs, ReadmeOnlyWrite e :=
  (C4_no_implicit_record_upload "s").1
    ⟨"", [], [Except.ok (Resp.rootListing none)], [], none, none, false, ⟨"", [], false⟩⟩
